import Mathlib

/-!
Shallow embedding of the secret-secret fungible-token contract
(src/src/contract.rs) and proofs about its specification claims.

Modelling conventions:
- machine integer u128 is modelled as Nat with explicit reduction modulo
  2 ^ 128 wherever the Rust arithmetic can wrap (the contract is compiled
  in release mode, where integer overflow wraps);
- byte strings are lists of Nat (each byte below 256 where it matters);
- the key-value storage namespaces are association lists; `set` replaces
  the entry for a key, `get` returns the first entry for a key;
- fallible Rust code returning StdResult, as well as code that can panic
  (unwrap / expect / out-of-range slice indexing), is modelled by the
  three-valued RunResult type;
- the hosting environment commits the writes of an invocation only when
  the invocation completes without error (spec section 5); an invocation
  is therefore State -> RunResult (State x Response) and an error result
  carries no state.
-/

/-- Byte strings, one Nat per byte. -/
abbrev Bytes := List Nat

/-- Canonical addresses (fixed-size identifiers produced by the address
resolution collaborator), abstracted to Nat keys with decidable equality. -/
abbrev Addr := Nat

/-- The u128 modulus 2 ^ 128. -/
def u128Mod : Nat := 2 ^ 128

/-- Big-endian byte encoding of n on k bytes (least significant byte last),
the model of the Rust u128::to_be_bytes for k = 16. -/
def natToBeBytes : Nat → Nat → Bytes
  | 0, _ => []
  | k + 1, n => natToBeBytes k (n / 256) ++ [n % 256]

/-- The 16-byte big-endian encoding used by the contract for every stored
integer (balances, allowances, the total supply). -/
def toBeBytes (n : Nat) : Bytes := natToBeBytes 16 n

/-- Big-endian decoding of a byte string (u128::from_be_bytes on 16 bytes). -/
def fromBeBytes (b : Bytes) : Nat := b.foldl (fun acc x => acc * 256 + x) 0

theorem natToBeBytes_length (k : Nat) : ∀ n, (natToBeBytes k n).length = k := by
  induction k with
  | zero => intro n; rfl
  | succ k ih => intro n; simp [natToBeBytes, ih]

theorem fromBeBytes_append_last (xs : Bytes) (b : Nat) :
    fromBeBytes (xs ++ [b]) = fromBeBytes xs * 256 + b := by
  simp [fromBeBytes, List.foldl_append]

theorem fromBeBytes_natToBeBytes (k : Nat) :
    ∀ n, fromBeBytes (natToBeBytes k n) = n % 256 ^ k := by
  induction k with
  | zero => intro n; simp [natToBeBytes, fromBeBytes, Nat.mod_one]
  | succ k ih =>
      intro n
      rw [natToBeBytes, fromBeBytes_append_last, ih]
      have h256 : (256 : Nat) ^ (k + 1) = 256 * 256 ^ k := by rw [pow_succ]; ring
      rw [h256, Nat.mod_mul]
      ring

theorem pow256_16 : 256 ^ 16 = u128Mod := by norm_num [u128Mod]

theorem fromBeBytes_toBeBytes (n : Nat) :
    fromBeBytes (toBeBytes n) = n % u128Mod := by
  rw [toBeBytes, fromBeBytes_natToBeBytes, pow256_16]

theorem fromBeBytes_toBeBytes_of_lt {n : Nat} (h : n < u128Mod) :
    fromBeBytes (toBeBytes n) = n := by
  rw [fromBeBytes_toBeBytes, Nat.mod_eq_of_lt h]

theorem toBeBytes_length (n : Nat) : (toBeBytes n).length = 16 :=
  natToBeBytes_length 16 n

theorem natToBeBytes_mod (k : Nat) :
    ∀ n, natToBeBytes k (n % 256 ^ k) = natToBeBytes k n := by
  induction k with
  | zero => intro n; rfl
  | succ k ih =>
      intro n
      have h256 : (256 : Nat) ^ (k + 1) = 256 * 256 ^ k := by
        rw [pow_succ]; ring
      have hmod : n % 256 ^ (k + 1) % 256 = n % 256 := by
        rw [h256]
        exact Nat.mod_mod_of_dvd n ⟨256 ^ k, by ring⟩
      have hdiv : n % 256 ^ (k + 1) / 256 = n / 256 % 256 ^ k := by
        rw [h256, Nat.mod_mul_right_div_self]
      rw [natToBeBytes, natToBeBytes, hmod, hdiv, ih]

theorem toBeBytes_mod (n : Nat) : toBeBytes (n % u128Mod) = toBeBytes n := by
  rw [toBeBytes, toBeBytes, ← pow256_16, natToBeBytes_mod]

/-- A byte string is a valid stored integer encoding when it round-trips
through decode/encode: exactly the image of toBeBytes on values below 2^128. -/
def ValidEnc (b : Bytes) : Bool := b == toBeBytes (fromBeBytes b)

theorem validEnc_toBeBytes (n : Nat) : ValidEnc (toBeBytes n) = true := by
  have : toBeBytes (fromBeBytes (toBeBytes n)) = toBeBytes n := by
    rw [fromBeBytes_toBeBytes, toBeBytes_mod]
  simp [ValidEnc, this]

theorem validEnc_eq {b : Bytes} (h : ValidEnc b = true) :
    b = toBeBytes (fromBeBytes b) := by
  simpa [ValidEnc] using h

theorem validEnc_length {b : Bytes} (h : ValidEnc b = true) : b.length = 16 := by
  rw [validEnc_eq h]; exact toBeBytes_length _

theorem validEnc_lt {b : Bytes} (h : ValidEnc b = true) :
    fromBeBytes b < u128Mod := by
  have hb := validEnc_eq h
  have : fromBeBytes b = fromBeBytes b % u128Mod := by
    conv_lhs => rw [hb]
    rw [fromBeBytes_toBeBytes]
  have hpos : 0 < u128Mod := by norm_num [u128Mod]
  have h2 : fromBeBytes b % u128Mod < u128Mod := Nat.mod_lt _ hpos
  omega

/-! ### The storage namespace layer

Each namespace (balances, allowances, viewing keys) is an association list
from a key with decidable equality to a stored byte string.  `sset` models
Storage::set (replace the value under a key), `sget` models Storage::get. -/

/-- Storage read: first entry for the key, if any. -/
def sget {κ : Type} [DecidableEq κ] (st : List (κ × Bytes)) (k : κ) : Option Bytes :=
  (st.find? (fun p => p.1 == k)).map Prod.snd

/-- Storage write: replace any entry for the key. -/
def sset {κ : Type} [DecidableEq κ] (st : List (κ × Bytes)) (k : κ) (v : Bytes) :
    List (κ × Bytes) :=
  (k, v) :: st.filter (fun p => !(p.1 == k))

theorem sget_sset_self {κ : Type} [DecidableEq κ] (st : List (κ × Bytes)) (k : κ) (v : Bytes) :
    sget (sset st k v) k = some v := by
  simp [sget, sset, List.find?]

theorem find?_filter_other {κ : Type} [DecidableEq κ]
    (st : List (κ × Bytes)) (k k' : κ) (h : k' ≠ k) :
    (st.filter (fun p => !(p.1 == k))).find? (fun p => p.1 == k') =
      st.find? (fun p => p.1 == k') := by
  induction st with
  | nil => rfl
  | cons a l ih =>
      by_cases h2 : a.1 = k
      · have h1 : (a.1 == k') = false := by
          simp only [beq_eq_false_iff_ne]
          rw [h2]
          exact fun hh => h hh.symm
        have h2b : (a.1 == k) = true := by simp [h2]
        simp only [List.filter_cons, h2b, Bool.not_true, Bool.false_eq_true, if_false, ih,
          List.find?, h1]
      · have h2b : (a.1 == k) = false := by simp [h2]
        by_cases h1 : a.1 = k'
        · have h1b : (a.1 == k') = true := by simp [h1]
          simp only [List.filter_cons, h2b, Bool.not_false, if_true, List.find?, h1b]
        · have h1b : (a.1 == k') = false := by simp [h1]
          simp only [List.filter_cons, h2b, Bool.not_false, if_true, List.find?, h1b, ih]

theorem sget_sset_ne {κ : Type} [DecidableEq κ]
    (st : List (κ × Bytes)) (k k' : κ) (v : Bytes) (h : k' ≠ k) :
    sget (sset st k v) k' = sget st k' := by
  have hne : (k == k') = false := by
    simp only [beq_eq_false_iff_ne]
    exact fun hh => h hh.symm
  simp only [sget, sset, List.find?, hne]
  rw [find?_filter_other st k k' h]

/-- Decoded integer stored under a key: 0 when absent (read_u128 on None). -/
def getU {κ : Type} [DecidableEq κ] (st : List (κ × Bytes)) (k : κ) : Nat :=
  match sget st k with
  | some b => fromBeBytes b
  | none => 0

/-- Every stored byte string in the namespace is a valid 16-byte encoding. -/
def EncWF {κ : Type} (st : List (κ × Bytes)) : Bool :=
  st.all (fun p => ValidEnc p.2)

/-- The namespace has no duplicate keys. -/
def NodupKeys {κ : Type} (st : List (κ × Bytes)) : Prop :=
  (st.map Prod.fst).Nodup

theorem encWF_mem {κ : Type} {st : List (κ × Bytes)} {p : κ × Bytes}
    (h : EncWF st = true) (hm : p ∈ st) : ValidEnc p.2 = true := by
  simp only [EncWF, List.all_eq_true] at h
  exact h p hm

theorem sget_mem {κ : Type} [DecidableEq κ] {st : List (κ × Bytes)} {k : κ} {b : Bytes}
    (h : sget st k = some b) : (k, b) ∈ st := by
  simp only [sget, Option.map_eq_some'] at h
  obtain ⟨p, hp, hb⟩ := h
  have hmem := List.mem_of_find?_eq_some hp
  have hpred := List.find?_some hp
  simp only [beq_iff_eq] at hpred
  have : p = (k, b) := by
    cases p
    simp_all
  rw [← this]
  exact hmem

theorem encWF_sget {κ : Type} [DecidableEq κ] {st : List (κ × Bytes)} {k : κ} {b : Bytes}
    (h : EncWF st = true) (hg : sget st k = some b) : ValidEnc b = true :=
  encWF_mem h (sget_mem hg)

theorem getU_lt {κ : Type} [DecidableEq κ] {st : List (κ × Bytes)} (k : κ)
    (h : EncWF st = true) : getU st k < u128Mod := by
  unfold getU
  cases hg : sget st k with
  | none => norm_num [u128Mod]
  | some b => exact validEnc_lt (encWF_sget h hg)

theorem encWF_filter {κ : Type} {st : List (κ × Bytes)} (q : κ × Bytes → Bool)
    (h : EncWF st = true) : EncWF (st.filter q) = true := by
  simp only [EncWF, List.all_eq_true] at h ⊢
  intro p hp
  exact h p (List.mem_of_mem_filter hp)

theorem encWF_sset {κ : Type} [DecidableEq κ] {st : List (κ × Bytes)} (k : κ) (n : Nat)
    (h : EncWF st = true) : EncWF (sset st k (toBeBytes n)) = true := by
  simp only [sset, EncWF, List.all_cons, Bool.and_eq_true]
  constructor
  · exact validEnc_toBeBytes n
  · exact encWF_filter _ h

theorem nodupKeys_filter {κ : Type} {st : List (κ × Bytes)} (q : κ × Bytes → Bool)
    (h : NodupKeys st) : NodupKeys (st.filter q) := by
  unfold NodupKeys at h ⊢
  exact List.Nodup.sublist (List.Sublist.map Prod.fst (List.filter_sublist st)) h

theorem nodupKeys_sset {κ : Type} [DecidableEq κ] {st : List (κ × Bytes)} (k : κ) (v : Bytes)
    (h : NodupKeys st) : NodupKeys (sset st k v) := by
  unfold NodupKeys sset
  simp only [List.map_cons, List.nodup_cons]
  constructor
  · intro hmem
    simp only [List.mem_map] at hmem
    obtain ⟨p, hp, hfst⟩ := hmem
    have := List.of_mem_filter hp
    simp only [Bool.not_eq_eq_eq_not, Bool.not_true, beq_eq_false_iff_ne] at this
    exact this hfst
  · exact nodupKeys_filter _ h

/-- Sum of all decoded balances stored in a namespace. -/
def sumBal (st : List (Addr × Bytes)) : Nat :=
  (st.map (fun p => fromBeBytes p.2)).sum

theorem sumBal_cons (a : Addr × Bytes) (l : List (Addr × Bytes)) :
    sumBal (a :: l) = fromBeBytes a.2 + sumBal l := by
  simp [sumBal]

theorem sumBal_sset (st : List (Addr × Bytes)) (k : Addr) (v : Bytes) :
    sumBal (sset st k v) =
      fromBeBytes v + sumBal (st.filter (fun p => !(p.1 == k))) := by
  simp [sumBal, sset]

theorem sumBal_split (st : List (Addr × Bytes)) (k : Addr) (h : NodupKeys st) :
    sumBal st = getU st k + sumBal (st.filter (fun p => !(p.1 == k))) := by
  induction st with
  | nil => simp [sumBal, getU, sget]
  | cons a l ih =>
      have hnd : NodupKeys l := by
        unfold NodupKeys at h ⊢
        simp only [List.map_cons, List.nodup_cons] at h
        exact h.2
      by_cases hk : a.1 = k
      · have hnot : a.1 ∉ l.map Prod.fst := by
          unfold NodupKeys at h
          simp only [List.map_cons, List.nodup_cons] at h
          exact h.1
        have hfilter : l.filter (fun p => !(p.1 == k)) = l := by
          apply List.filter_eq_self.mpr
          intro p hp
          simp only [Bool.not_eq_eq_eq_not, Bool.not_true, beq_eq_false_iff_ne]
          intro hpk
          apply hnot
          rw [hk, ← hpk]
          exact List.mem_map_of_mem Prod.fst hp
        have hbeq : (a.1 == k) = true := by simp [hk]
        have hget : getU (a :: l) k = fromBeBytes a.2 := by
          simp [getU, sget, List.find?, hbeq]
        simp only [List.filter_cons, hbeq, Bool.not_true, Bool.false_eq_true, if_false, hget,
          hfilter, sumBal_cons]
      · have hbeq : (a.1 == k) = false := by simp [hk]
        have hget : getU (a :: l) k = getU l k := by
          simp [getU, sget, List.find?, hbeq]
        simp only [List.filter_cons, hbeq, Bool.not_false, if_true, hget, sumBal_cons,
          ih hnd]
        ring

theorem getU_le_sumBal (st : List (Addr × Bytes)) (k : Addr) (h : NodupKeys st) :
    getU st k ≤ sumBal st := by
  rw [sumBal_split st k h]
  omega

theorem sumBal_sset_update (st : List (Addr × Bytes)) (k : Addr) (n : Nat)
    (h : NodupKeys st) :
    sumBal (sset st k (toBeBytes n)) = sumBal st - getU st k + n % u128Mod := by
  rw [sumBal_sset, fromBeBytes_toBeBytes, sumBal_split st k h]
  omega

/-! ### Results of an invocation

Rust StdResult errors are `err`; panics (unwrap, expect, out-of-range
slice indexing) are `panic`.  The host commits the writes of an invocation
only when it returns Ok (spec section 5), so an invocation returns its new
state inside `ok` and an error result carries no state. -/

inductive RunResult (α : Type) where
  | panic
  | err (e : String)
  | ok (a : α)
  deriving DecidableEq, Repr

/-- Token metadata (contract.rs Constants).  name and symbol are kept as the
byte strings their as_bytes views expose; the bincode2 round-trip of the
external serializer is modelled by storing the structure itself. -/
structure Constants where
  name : Bytes
  symbol : Bytes
  decimals : Nat
  deriving DecidableEq, Repr

/-- The whole durable storage of the contract, one field per namespace
(PREFIX_BALANCES, PREFIX_ALLOWANCES, PREFIX_VIEW_KEY, PREFIX_CONFIG with its
two keys, and the external TransferHistory collaborator). -/
structure ContractState where
  balances : List (Addr × Bytes)
  allowances : List ((Addr × Addr) × Bytes)
  viewingKeys : List (Addr × Bytes)
  constants : Option Constants
  totalSupply : Option Bytes
  history : List (Addr × Addr × Nat × Bytes)
  deriving DecidableEq, Repr

/-- A native coin attached to a call. -/
structure Coin where
  denom : String
  amount : Nat
  deriving DecidableEq, Repr

/-- The invocation context: in this platform version message.sender and
contract.address are canonical addresses. -/
structure Env where
  sender : Addr
  sentFunds : List Coin
  contractAddress : Addr
  deriving DecidableEq, Repr

/-- The external address-resolution collaborator (deps.api): canonicalize a
human address, humanize a canonical one.  Failures propagate as errors. -/
structure Api where
  canonical : String → Except String Addr
  human : Addr → Except String String

instance {ε α : Type} [DecidableEq ε] [DecidableEq α] : DecidableEq (Except ε α) := fun a b =>
  match a, b with
  | .ok x, .ok y =>
      match decEq x y with
      | isTrue h => isTrue (by rw [h])
      | isFalse h => isFalse (by intro hh; cases hh; exact h rfl)
  | .error x, .error y =>
      match decEq x y with
      | isTrue h => isTrue (by rw [h])
      | isFalse h => isFalse (by intro hh; cases hh; exact h rfl)
  | .ok _, .error _ => isFalse (by intro hh; cases hh)
  | .error _, .ok _ => isFalse (by intro hh; cases hh)

inductive CosmosMsg where
  | bankSend (fromAddress : String) (toAddress : String) (amount : List Coin)
  deriving DecidableEq, Repr

/-- HandleResponse: outbound messages, log attributes, optional data. -/
structure HandleResponse where
  messages : List CosmosMsg
  log : List (String × String)
  data : Option Bytes
  deriving DecidableEq, Repr

/-- The state committed by the host after an invocation: the new state on
Ok, the unchanged pre-invocation state otherwise (all-or-nothing rule of
the hosting environment, spec section 5). -/
def commit (s : ContractState) (r : RunResult (ContractState × HandleResponse)) :
    ContractState :=
  match r with
  | .ok (s', _) => s'
  | _ => s

/-! ### Stored-integer accessors (contract.rs lines 587-645) -/

/-- contract.rs bytes_to_u128.  The Rust body indexes data[0..16] first,
which panics when fewer than 16 bytes are stored, and try_into then always
succeeds on the resulting 16-byte slice, silently truncating longer values
to their first 16 bytes; the CorruptStorage error branch of the match is
unreachable. -/
def bytes_to_u128 (data : Bytes) : RunResult Nat :=
  if data.length < 16 then .panic
  else .ok (fromBeBytes (data.take 16))

/-- contract.rs read_u128: zero when the key does not exist. -/
def read_u128 {κ : Type} [DecidableEq κ] (store : List (κ × Bytes)) (key : κ) :
    RunResult Nat :=
  match sget store key with
  | some data => bytes_to_u128 data
  | none => .ok 0

def read_balance (s : ContractState) (owner : Addr) : RunResult Nat :=
  read_u128 s.balances owner

def read_allowance (s : ContractState) (owner spender : Addr) : RunResult Nat :=
  read_u128 s.allowances (owner, spender)

def write_allowance (s : ContractState) (owner spender : Addr) (amount : Nat) :
    ContractState :=
  { s with allowances := sset s.allowances (owner, spender) (toBeBytes amount) }

def read_viewing_key (s : ContractState) (owner : Addr) : Option Bytes :=
  sget s.viewingKeys owner

/-- contract.rs read_constants: get(KEY_CONSTANTS).unwrap() panics when the
constants were never stored. -/
def read_constants (s : ContractState) : RunResult Constants :=
  match s.constants with
  | some c => .ok c
  | none => .panic

theorem read_u128_wf {κ : Type} [DecidableEq κ] (st : List (κ × Bytes)) (k : κ)
    (h : EncWF st = true) : read_u128 st k = .ok (getU st k) := by
  unfold read_u128 getU
  cases hg : sget st k with
  | none => rfl
  | some b =>
      have hv := encWF_sget h hg
      have hlen := validEnc_length hv
      simp only [bytes_to_u128, hlen]
      norm_num
      rw [List.take_of_length_le (by omega)]

/-! ### The ledger accounting engine (contract.rs) -/

def insufficientFundsMsg (balance required : Nat) : String :=
  "Insufficient funds: balance=" ++ Nat.repr balance ++ ", required=" ++ Nat.repr required

def insufficientFundsBurnMsg (balance required : Nat) : String :=
  "insufficient funds to burn: balance=" ++ Nat.repr balance ++ ", required=" ++
    Nat.repr required

def insufficientAllowanceMsg (allowance required : Nat) : String :=
  "Insufficient allowance: allowance=" ++ Nat.repr allowance ++ ", required=" ++
    Nat.repr required

/-- contract.rs perform_transfer (lines 562-585): read the sender balance,
check sufficiency, write the decremented value, read the recipient balance,
write the incremented value (u128 wrapping addition). -/
def perform_transfer (balances : List (Addr × Bytes)) (fromAddr toAddr : Addr)
    (amount : Nat) : RunResult (List (Addr × Bytes)) :=
  match read_u128 balances fromAddr with
  | .panic => .panic
  | .err e => .err e
  | .ok fromBalance =>
    if fromBalance < amount then
      .err (insufficientFundsMsg fromBalance amount)
    else
      let balances1 := sset balances fromAddr (toBeBytes (fromBalance - amount))
      match read_u128 balances1 toAddr with
      | .panic => .panic
      | .err e => .err e
      | .ok toBalance =>
        .ok (sset balances1 toAddr (toBeBytes ((toBalance + amount) % u128Mod)))

/-- Modelled from the spec: the TransferHistory collaborator (crate state,
not under src/) appends an entry with the parties, amount and symbol of every
successful transfer (spec sections 3 and 6). -/
def store_transfer (s : ContractState) (owner recipient : Addr) (amount : Nat)
    (symbol : Bytes) : ContractState :=
  { s with history := s.history ++ [(owner, recipient, amount, symbol)] }

/-- Modelled from the spec: the TransferHistory list accessor (crate state,
not under src/): the ordered entries involving an address. -/
def get_transfers (s : ContractState) (addr : Addr) :
    RunResult (List (Addr × Addr × Nat × Bytes)) :=
  .ok (s.history.filter (fun e => e.1 == addr || e.2.1 == addr))

/-- The last uscrt coin of sent_funds, 0 when none: the amount_raw loop of
try_deposit (contract.rs lines 285-291). -/
def depositAmount (env : Env) : Nat :=
  env.sentFunds.foldl (fun acc c => if c.denom = "uscrt" then c.amount else acc) 0

/-- contract.rs try_deposit (lines 281-333). -/
def try_deposit (api : Api) (s : ContractState) (env : Env) :
    RunResult (ContractState × HandleResponse) :=
  let amountRaw := depositAmount env
  if amountRaw = 0 then .err ("Lol send some funds dude")
  else
    match read_u128 s.balances env.sender with
    | .panic => .panic
    | .err e => .err e
    | .ok bal =>
      let s1 := { s with
        balances := sset s.balances env.sender (toBeBytes ((bal + amountRaw) % u128Mod)) }
      match s1.totalSupply with
      | none => .panic
      | some data =>
        match bytes_to_u128 data with
        | .ok total =>
          let s2 := { s1 with totalSupply := some (toBeBytes ((total + amountRaw) % u128Mod)) }
          match api.human env.sender with
          | .error e => .err e
          | .ok senderH =>
            .ok (s2, { messages := [],
                       log := [("action", "deposit"), ("account", senderH),
                               ("amount", Nat.repr amountRaw)],
                       data := none })
        | _ => .panic

/-- contract.rs try_withdraw (lines 335-390).  The total supply subtraction is
u128 wrapping; the insufficient-funds message of withdraw reuses the burn
wording of the source. -/
def try_withdraw (api : Api) (s : ContractState) (env : Env) (amount : Nat) :
    RunResult (ContractState × HandleResponse) :=
  match read_u128 s.balances env.sender with
  | .panic => .panic
  | .err e => .err e
  | .ok bal =>
    if bal < amount then .err (insufficientFundsBurnMsg bal amount)
    else
      let s1 := { s with balances := sset s.balances env.sender (toBeBytes (bal - amount)) }
      match s1.totalSupply with
      | none => .panic
      | some data =>
        match bytes_to_u128 data with
        | .ok total =>
          let s2 := { s1 with
            totalSupply := some (toBeBytes ((total + u128Mod - amount) % u128Mod)) }
          match api.human env.contractAddress with
          | .error e => .err e
          | .ok contractH =>
            match api.human env.sender with
            | .error e => .err e
            | .ok senderH =>
              .ok (s2, { messages := [CosmosMsg.bankSend contractH senderH
                           [{ denom := "uscrt", amount := amount }]],
                         log := [("action", "withdraw"), ("account", senderH),
                                 ("amount", Nat.repr amount)],
                         data := none })
        | _ => .panic

/-- contract.rs try_burn (lines 515-560). -/
def try_burn (api : Api) (s : ContractState) (env : Env) (amount : Nat) :
    RunResult (ContractState × HandleResponse) :=
  match read_u128 s.balances env.sender with
  | .panic => .panic
  | .err e => .err e
  | .ok bal =>
    if bal < amount then .err (insufficientFundsBurnMsg bal amount)
    else
      let s1 := { s with balances := sset s.balances env.sender (toBeBytes (bal - amount)) }
      match s1.totalSupply with
      | none => .panic
      | some data =>
        match bytes_to_u128 data with
        | .ok total =>
          let s2 := { s1 with
            totalSupply := some (toBeBytes ((total + u128Mod - amount) % u128Mod)) }
          match api.human env.sender with
          | .error e => .err e
          | .ok senderH =>
            .ok (s2, { messages := [],
                       log := [("action", "burn"), ("account", senderH),
                               ("amount", Nat.repr amount)],
                       data := none })
        | _ => .panic

/-- contract.rs try_transfer (lines 392-426). -/
def try_transfer (api : Api) (s : ContractState) (env : Env) (recipient : String)
    (amount : Nat) : RunResult (ContractState × HandleResponse) :=
  match api.canonical recipient with
  | .error e => .err e
  | .ok recipientRaw =>
    match perform_transfer s.balances env.sender recipientRaw amount with
    | .panic => .panic
    | .err e => .err e
    | .ok balances1 =>
      let s1 := { s with balances := balances1 }
      match read_constants s1 with
      | .panic => .panic
      | .err e => .err e
      | .ok consts =>
        let s2 := store_transfer s1 env.sender recipientRaw amount consts.symbol
        match api.human env.sender with
        | .error e => .err e
        | .ok senderH =>
          .ok (s2, { messages := [],
                     log := [("action", "transfer"), ("sender", senderH),
                             ("recipient", recipient)],
                     data := none })

/-- contract.rs try_transfer_from (lines 428-479): the spender is the
invocation sender; allowance is read, checked, decremented and written back
before perform_transfer runs. -/
def try_transfer_from (api : Api) (s : ContractState) (env : Env)
    (owner recipient : String) (amount : Nat) :
    RunResult (ContractState × HandleResponse) :=
  match api.canonical owner with
  | .error e => .err e
  | .ok ownerRaw =>
    match api.canonical recipient with
    | .error e => .err e
    | .ok recipientRaw =>
      match read_allowance s ownerRaw env.sender with
      | .panic => .panic
      | .err e => .err e
      | .ok allowance =>
        if allowance < amount then
          .err (insufficientAllowanceMsg allowance amount)
        else
          let s1 := write_allowance s ownerRaw env.sender (allowance - amount)
          match perform_transfer s1.balances ownerRaw recipientRaw amount with
          | .panic => .panic
          | .err e => .err e
          | .ok balances1 =>
            let s2 := { s1 with balances := balances1 }
            match read_constants s2 with
            | .panic => .panic
            | .err e => .err e
            | .ok consts =>
              let s3 := store_transfer s2 ownerRaw recipientRaw amount consts.symbol
              match api.human env.sender with
              | .error e => .err e
              | .ok spenderH =>
                .ok (s3, { messages := [],
                           log := [("action", "transfer_from"), ("spender", spenderH),
                                   ("sender", owner), ("recipient", recipient)],
                           data := none })

/-- contract.rs try_approve (lines 481-508): unconditionally overwrite the
stored allowance. -/
def try_approve (api : Api) (s : ContractState) (env : Env) (spender : String)
    (amount : Nat) : RunResult (ContractState × HandleResponse) :=
  match api.canonical spender with
  | .error e => .err e
  | .ok spenderRaw =>
    let s1 := write_allowance s env.sender spenderRaw amount
    match api.human env.sender with
    | .error e => .err e
    | .ok ownerH =>
      .ok (s1, { messages := [],
                 log := [("action", "approve"), ("owner", ownerH),
                         ("spender", spender)],
                 data := none })

/-! ### Viewing-key subsystem and query gate -/

/-- Modelled from the spec: the viewing-key module (crate viewing_key and
crate utils, not under src/).  A candidate is valid when its length equals
the fixed required key length; verification compares the salted hash of the
candidate with a stored byte string, false on any mismatch including length
(section 4.3).  The hash itself stays an abstract function. -/
structure VKModel where
  hash : String → Bytes
  apiKeyLen : Nat

/-- Modelled from the spec: verify(candidate, stored) compares the salted
hash of the candidate against the stored bytes (value semantics of the
constant-time comparison). -/
def check_viewing_key (vk : VKModel) (key : String) (stored : Bytes) : Bool :=
  vk.hash key == stored

def write_viewing_key (vk : VKModel) (s : ContractState) (owner : Addr) (key : String) :
    ContractState :=
  { s with viewingKeys := sset s.viewingKeys owner (vk.hash key) }

/-- The fixed-length all-zero placeholder compared against when no key is
stored (contract.rs line 108). -/
def zerosPlaceholder : Bytes := List.replicate 24 0

/-- The response returned by try_set_key on a candidate of the wrong length:
Ok-shaped, with log content signalling the failure. -/
def setKeyFailResp (vk : VKModel) : HandleResponse :=
  { messages := [],
    log := [("result", "failed!"),
            ("viewing key", "viewing key must be a string exactly " ++
              Nat.repr vk.apiKeyLen ++ " characters!")],
    data := none }

/-- The response returned by try_set_key on success (the key displays as its
own plaintext). -/
def setKeySuccessResp (key : String) : HandleResponse :=
  { messages := [],
    log := [("result", "success"), ("viewing key", key)],
    data := none }

/-- contract.rs try_set_key (lines 140-169). -/
def try_set_key (vk : VKModel) (s : ContractState) (env : Env) (key : String) :
    RunResult (ContractState × HandleResponse) :=
  if key.length ≠ vk.apiKeyLen then
    .ok (s, setKeyFailResp vk)
  else
    .ok (write_viewing_key vk s env.sender key, setKeySuccessResp key)

inductive QueryMsg where
  | balance (address : String) (key : String)
  | transfers (address : String) (key : String)
  deriving DecidableEq, Repr

/-- msg.get_validation_params(): the (address, key) pair carried by every
read-only request. -/
def getValidationParams : QueryMsg → String × String
  | .balance a k => (a, k)
  | .transfers a k => (a, k)

/-- The fixed generic denial payload of the query gate. -/
def denialMsg : String := "Wrong viewing key for this address or viewing key not set"

/-- A compact rendering of a byte string (display only, no claim reads it). -/
def reprBytes (b : Bytes) : String :=
  String.intercalate (",") (b.map Nat.repr)

/-- contract.rs to_display_token (lines 679-686).  base.pow(decimals) is a
u32 power, which wraps; Decimal::from_ratio of the external library panics
on a zero denominator and its rendering is otherwise an external concern,
kept abstract as a total injective-enough encoding. -/
def to_display_token (amount : Nat) (symbol : Bytes) (decimals : Nat) :
    RunResult String :=
  let denom := 10 ^ decimals % 2 ^ 32
  if denom = 0 then .panic
  else .ok (Nat.repr amount ++ " of 10 pow " ++ Nat.repr denom ++ " " ++ reprBytes symbol)

/-- contract.rs get_balance (lines 273-279). -/
def get_balance (s : ContractState) (account : Addr) : RunResult String :=
  match read_u128 s.balances account with
  | .panic => .panic
  | .err e => .err e
  | .ok bal =>
    match read_constants s with
    | .panic => .panic
    | .err e => .err e
    | .ok consts => to_display_token bal consts.symbol consts.decimals

/-- contract.rs query_balance (lines 133-138). -/
def query_balance (api : Api) (s : ContractState) (account : String) : RunResult String :=
  match api.canonical account with
  | .error e => .err e
  | .ok addr => get_balance s addr

/-- A compact rendering of the history entries (the debug formatting of the
source, display only). -/
def reprTransfers (l : List (Addr × Addr × Nat × Bytes)) : String :=
  String.intercalate (";") (l.map (fun e =>
    Nat.repr e.1 ++ ">" ++ Nat.repr e.2.1 ++ ":" ++ Nat.repr e.2.2.1))

/-- contract.rs query_transactions (lines 126-131): note the unwrap on the
second canonicalization of the same address. -/
def query_transactions (api : Api) (s : ContractState) (account : String) :
    RunResult String :=
  match api.canonical account with
  | .error _ => .panic
  | .ok addr =>
    match get_transfers s addr with
    | .panic => .panic
    | .err e => .err e
    | .ok entries => .ok (reprTransfers entries)

/-- contract.rs query (lines 94-124): the authorization gate.  When no key is
stored the candidate is checked against the zero placeholder; if that check
fails the generic denial is returned, otherwise control reaches
expected_key.unwrap() on None, a panic.  When a key is stored, a mismatch
returns the same denial, and a match dispatches to the read accessor. -/
def query (vk : VKModel) (api : Api) (s : ContractState) (msg : QueryMsg) :
    RunResult String :=
  let address := (getValidationParams msg).1
  let key := (getValidationParams msg).2
  match api.canonical address with
  | .error e => .err e
  | .ok canonicalAddr =>
    match read_viewing_key s canonicalAddr with
    | none =>
      if !check_viewing_key vk key zerosPlaceholder then .ok denialMsg
      else .panic
    | some expected =>
      if !check_viewing_key vk key expected then .ok denialMsg
      else
        match msg with
        | .balance a _ => query_balance api s a
        | .transfers a _ => query_transactions api s a

/-! ### Initialization (contract.rs init, lines 27-69) -/

structure InitialBalance where
  address : String
  amount : Nat
  deriving DecidableEq, Repr

structure InitMsg where
  name : Bytes
  symbol : Bytes
  decimals : Nat
  initial_balances : List InitialBalance
  deriving Repr

def is_valid_name (name : Bytes) : Bool :=
  3 ≤ name.length && name.length ≤ 30

def is_valid_symbol (symbol : Bytes) : Bool :=
  3 ≤ symbol.length && symbol.length ≤ 6 &&
    symbol.all (fun b => 65 ≤ b && b ≤ 90)

/-- The initial-balances loop of init: write each row (overwriting any
earlier row with the same canonical address) and add its amount into the
running total (u128 wrapping addition). -/
def initLoop (api : Api) : List InitialBalance → List (Addr × Bytes) → Nat →
    RunResult (List (Addr × Bytes) × Nat)
  | [], bals, total => .ok (bals, total)
  | row :: rows, bals, total =>
    match api.canonical row.address with
    | .error e => .err e
    | .ok raw =>
        initLoop api rows (sset bals raw (toBeBytes row.amount))
          ((total + row.amount) % u128Mod)

/-- The uninitialized store. -/
def emptyState : ContractState :=
  { balances := [], allowances := [], viewingKeys := [], constants := none,
    totalSupply := none, history := [] }

/-- contract.rs init: balances and total first, then the format checks, then
constants and total supply are stored. -/
def init (api : Api) (s : ContractState) (msg : InitMsg) : RunResult ContractState :=
  match initLoop api msg.initial_balances s.balances 0 with
  | .panic => .panic
  | .err e => .err e
  | .ok (bals, total) =>
    if !is_valid_name msg.name then
      .err ("Name is not in the expected format (3-30 UTF-8 bytes)")
    else if !is_valid_symbol msg.symbol then
      .err ("Ticker symbol is not in expected format [A-Z]\x7b3,6\x7d")
    else if msg.decimals > 18 then
      .err ("Decimals must not exceed 18")
    else
      .ok { s with balances := bals,
                   constants := some { name := msg.name, symbol := msg.symbol,
                                       decimals := msg.decimals },
                   totalSupply := some (toBeBytes total) }

/-! ### Shared lemmas about the accessors -/

theorem bytes_to_u128_validEnc {b : Bytes} (h : ValidEnc b = true) :
    bytes_to_u128 b = .ok (fromBeBytes b) := by
  have hlen := validEnc_length h
  simp only [bytes_to_u128, hlen]
  norm_num
  rw [List.take_of_length_le (by omega)]

theorem wrapping_sub_eq {t a : Nat} (h1 : a ≤ t) (h2 : t < u128Mod) :
    (t + u128Mod - a) % u128Mod = t - a := by
  have h3 : t + u128Mod - a = (t - a) + u128Mod := by omega
  rw [h3, Nat.add_mod_right]
  exact Nat.mod_eq_of_lt (by omega)

theorem filter_ne_of_not_mem {κ : Type} [DecidableEq κ] {st : List (κ × Bytes)} {k : κ}
    (h : k ∉ st.map Prod.fst) : st.filter (fun p => !(p.1 == k)) = st := by
  apply List.filter_eq_self.mpr
  intro p hp
  simp only [Bool.not_eq_eq_eq_not, Bool.not_true, beq_eq_false_iff_ne]
  intro hpk
  apply h
  rw [← hpk]
  exact List.mem_map_of_mem Prod.fst hp

theorem getU_sset_self {κ : Type} [DecidableEq κ] (st : List (κ × Bytes)) (k : κ) {n : Nat}
    (h : n < u128Mod) : getU (sset st k (toBeBytes n)) k = n := by
  simp only [getU, sget_sset_self]
  exact fromBeBytes_toBeBytes_of_lt h

theorem getU_sset_ne {κ : Type} [DecidableEq κ] (st : List (κ × Bytes)) (k k' : κ)
    (v : Bytes) (h : k' ≠ k) : getU (sset st k v) k' = getU st k' := by
  simp only [getU, sget_sset_ne st k k' v h]

/-! ### C7: wrong-length stored integers -/

/-- C7: the source comments on bytes_to_u128/read_u128 promise an error on
stored data that is not 16 bytes, and the spec requires CorruptStorage.  The
code instead silently truncates a 17-byte stored value to its first 16 bytes
(the 16-zeros-then-7 value decodes as 0, dropping the final byte) and panics
on an 8-byte value (out-of-range slice index), and its CorruptStorage branch
is unreachable. -/
theorem c7_wrong_length_reads :
    bytes_to_u128 (List.replicate 16 0 ++ [7]) = .ok 0 ∧
    (List.replicate 16 0 ++ [7]).length = 17 ∧
    bytes_to_u128 (List.replicate 8 1) = .panic ∧
    read_u128 [(1, List.replicate 16 0 ++ [7])] 1 = .ok 0 ∧
    read_u128 [(1, List.replicate 8 1)] 1 = .panic := by decide

/-! ### C4: perform_transfer -/

set_option maxHeartbeats 1000000 in
/-- Shared characterization of perform_transfer over a well-formed balance
namespace: the insufficient-funds failure, the distinct-party success, and
the self-transfer success. -/
theorem perform_transfer_spec (balances : List (Addr × Bytes)) (fromAddr toAddr : Addr)
    (amount : Nat) (hwf : EncWF balances = true) :
    (getU balances fromAddr < amount →
      perform_transfer balances fromAddr toAddr amount =
        .err (insufficientFundsMsg (getU balances fromAddr) amount)) ∧
    (amount ≤ getU balances fromAddr → fromAddr ≠ toAddr →
      getU balances toAddr + amount < u128Mod →
      ∃ balances1, perform_transfer balances fromAddr toAddr amount = .ok balances1 ∧
        EncWF balances1 = true ∧
        getU balances1 fromAddr = getU balances fromAddr - amount ∧
        getU balances1 toAddr = getU balances toAddr + amount ∧
        (∀ a, a ≠ fromAddr → a ≠ toAddr → sget balances1 a = sget balances a)) ∧
    (amount ≤ getU balances fromAddr → fromAddr = toAddr →
      ∃ balances1, perform_transfer balances fromAddr toAddr amount = .ok balances1 ∧
        ∀ a, getU balances1 a = getU balances a) := by
  have hblt : getU balances fromAddr < u128Mod := getU_lt fromAddr hwf
  refine ⟨?_, ?_, ?_⟩
  · intro hlt
    simp only [perform_transfer, read_u128_wf balances fromAddr hwf, if_pos hlt]
  · intro hge hne hnw
    have hnlt : ¬(getU balances fromAddr < amount) := by omega
    have hwf1 : EncWF (sset balances fromAddr (toBeBytes (getU balances fromAddr - amount))) =
        true := encWF_sset _ _ hwf
    simp only [perform_transfer, read_u128_wf balances fromAddr hwf, if_neg hnlt,
      read_u128_wf _ toAddr hwf1]
    have hto : getU (sset balances fromAddr (toBeBytes (getU balances fromAddr - amount)))
        toAddr = getU balances toAddr :=
      getU_sset_ne _ _ _ _ (fun hh => hne hh.symm)
    refine ⟨_, rfl, ?_, ?_, ?_, ?_⟩
    · exact encWF_sset _ _ hwf1
    · rw [getU_sset_ne _ _ _ _ hne]
      exact getU_sset_self _ _ (by omega)
    · rw [hto, getU_sset_self _ _ (Nat.mod_lt _ (by norm_num [u128Mod]))]
      exact Nat.mod_eq_of_lt hnw
    · intro a ha1 ha2
      rw [sget_sset_ne _ _ _ _ ha2, sget_sset_ne _ _ _ _ ha1]
  · intro hge heq
    subst heq
    have hnlt : ¬(getU balances fromAddr < amount) := by omega
    have hwf1 : EncWF (sset balances fromAddr (toBeBytes (getU balances fromAddr - amount))) =
        true := encWF_sset _ _ hwf
    simp only [perform_transfer, read_u128_wf balances fromAddr hwf, if_neg hnlt,
      read_u128_wf _ fromAddr hwf1]
    have hself : getU (sset balances fromAddr (toBeBytes (getU balances fromAddr - amount)))
        fromAddr = getU balances fromAddr - amount := getU_sset_self _ _ (by omega)
    refine ⟨_, rfl, ?_⟩
    intro a
    by_cases ha : a = fromAddr
    · subst ha
      rw [hself, getU_sset_self _ _ (Nat.mod_lt _ (by norm_num [u128Mod])),
        Nat.sub_add_cancel hge]
      exact Nat.mod_eq_of_lt hblt
    · rw [getU_sset_ne _ _ _ _ ha, getU_sset_ne _ _ _ _ ha]

/-- C4 (amended): given a well-formed balance namespace, perform_transfer
fails with InsufficientFunds (and, by the all-or-nothing rule, changes
nothing) when the sender balance is below the amount; when the balance
suffices and sender and recipient are distinct and the credit stays below
2 ^ 128, the sender decreases by the amount, the recipient increases by the
amount, and every other balance entry is untouched; a self-transfer with a
sufficient balance succeeds and leaves every balance unchanged. -/
theorem c4_perform_transfer (balances : List (Addr × Bytes)) (fromAddr toAddr : Addr)
    (amount : Nat) (hwf : EncWF balances = true) :
    (getU balances fromAddr < amount →
      perform_transfer balances fromAddr toAddr amount =
        .err (insufficientFundsMsg (getU balances fromAddr) amount)) ∧
    (amount ≤ getU balances fromAddr → fromAddr ≠ toAddr →
      getU balances toAddr + amount < u128Mod →
      ∃ balances1, perform_transfer balances fromAddr toAddr amount = .ok balances1 ∧
        EncWF balances1 = true ∧
        getU balances1 fromAddr = getU balances fromAddr - amount ∧
        getU balances1 toAddr = getU balances toAddr + amount ∧
        (∀ a, a ≠ fromAddr → a ≠ toAddr → sget balances1 a = sget balances a)) ∧
    (amount ≤ getU balances fromAddr → fromAddr = toAddr →
      ∃ balances1, perform_transfer balances fromAddr toAddr amount = .ok balances1 ∧
        ∀ a, getU balances1 a = getU balances a) :=
  perform_transfer_spec balances fromAddr toAddr amount hwf

/-- C4 witness: a concrete transfer of 3 from address 1 (balance 5) to
address 2 (balance 7). -/
theorem c4_perform_transfer_witness :
    EncWF [(1, toBeBytes 5), (2, toBeBytes 7)] = true ∧
    (∃ balances1,
      perform_transfer [(1, toBeBytes 5), (2, toBeBytes 7)] 1 2 3 = .ok balances1 ∧
      EncWF balances1 = true ∧
      getU balances1 1 = getU [(1, toBeBytes 5), (2, toBeBytes 7)] 1 - 3 ∧
      getU balances1 2 = getU [(1, toBeBytes 5), (2, toBeBytes 7)] 2 + 3 ∧
      (∀ a, a ≠ 1 → a ≠ 2 → sget balances1 a = sget [(1, toBeBytes 5), (2, toBeBytes 7)] a)) :=
  ⟨by decide,
    (c4_perform_transfer [(1, toBeBytes 5), (2, toBeBytes 7)] 1 2 3 (by decide)).2.1
      (by decide) (by decide) (by decide)⟩

/-- C4 counterexample: a self-transfer of 3 with balance 5 succeeds and
leaves the balance at 5 rather than decreasing the sender by the amount,
and a credit crossing 2 ^ 128 wraps to 4 instead of increasing the
recipient balance 2 ^ 128 - 1 by the amount 5. -/
theorem c4_counterexample :
    perform_transfer [(1, toBeBytes 5)] 1 1 3 = .ok [(1, toBeBytes 5)] ∧
    getU [(1, toBeBytes 5)] 1 = 5 ∧ ¬((5 : Nat) = 5 - 3) ∧
    perform_transfer [(2, toBeBytes (u128Mod - 1)), (3, toBeBytes 10)] 3 2 5 =
      .ok [(2, toBeBytes 4), (3, toBeBytes 5)] ∧
    getU [(2, toBeBytes 4), (3, toBeBytes 5)] 2 = 4 ∧
    ¬((4 : Nat) = u128Mod - 1 + 5) := by decide

/-! ### Concrete fixtures used by witnesses -/

/-- A concrete address-resolution collaborator: the canonical form of a
human address is its length, the human form of a canonical address is its
decimal rendering. -/
def apiLen : Api :=
  { canonical := fun a => .ok a.length, human := fun n => .ok (Nat.repr n) }

/-- ASCII bytes of a string (the as_bytes view of ASCII literals). -/
def asciiBytes (s : String) : Bytes := s.data.map Char.toNat

/-! ### C9: approve overwrites -/

def approveResp (ownerH spender : String) : HandleResponse :=
  { messages := [],
    log := [("action", "approve"), ("owner", ownerH), ("spender", spender)],
    data := none }

/-- C9: try_approve unconditionally overwrites the stored allowance: whatever
was stored before, the allowance afterwards decodes to the approved amount,
every other allowance entry is untouched, and approving the same amount a
second time still yields that amount rather than twice it. -/
theorem c9_approve_overwrites (api : Api) (s : ContractState) (env : Env)
    (spender : String) (amount : Nat) (spenderRaw : Addr) (ownerH : String)
    (hc : api.canonical spender = .ok spenderRaw)
    (hh : api.human env.sender = .ok ownerH)
    (ha : amount < u128Mod) :
    ∃ s', try_approve api s env spender amount = .ok (s', approveResp ownerH spender) ∧
      getU s'.allowances (env.sender, spenderRaw) = amount ∧
      (∀ k, k ≠ (env.sender, spenderRaw) → sget s'.allowances k = sget s.allowances k) ∧
      (∃ s2, try_approve api s' env spender amount = .ok (s2, approveResp ownerH spender) ∧
        getU s2.allowances (env.sender, spenderRaw) = amount) := by
  simp only [try_approve, hc, hh, write_allowance]
  refine ⟨_, rfl, ?_, ?_, ?_⟩
  · exact getU_sset_self _ _ ha
  · intro k hk
    exact sget_sset_ne _ _ _ _ hk
  · simp only [try_approve, hc, hh, write_allowance]
    refine ⟨_, rfl, ?_⟩
    exact getU_sset_self _ _ ha

/-- C9 witness: account 3 approves spender BB twice with amount 10 over a
state that already stores allowance 4 for that pair. -/
theorem c9_approve_overwrites_witness :
    ∃ s', try_approve apiLen
        { emptyState with allowances := [((3, 2), toBeBytes 4)] }
        { sender := 3, sentFunds := [], contractAddress := 9 } ("BB") 10 =
        .ok (s', approveResp (Nat.repr 3) ("BB")) ∧
      getU s'.allowances (3, 2) = 10 ∧
      (∀ k, k ≠ ((3 : Addr), (2 : Addr)) → sget s'.allowances k =
        sget [((3, 2), toBeBytes 4)] k) ∧
      (∃ s2, try_approve apiLen s'
          { sender := 3, sentFunds := [], contractAddress := 9 } ("BB") 10 =
          .ok (s2, approveResp (Nat.repr 3) ("BB")) ∧
        getU s2.allowances (3, 2) = 10) :=
  c9_approve_overwrites apiLen
    { emptyState with allowances := [((3, 2), toBeBytes 4)] }
    { sender := 3, sentFunds := [], contractAddress := 9 } ("BB") 10 2 (Nat.repr 3)
    (by decide) (by decide) (by decide)

/-! ### C8: set_key -/

/-- C8: when the candidate length differs from the required key length,
try_set_key returns an Ok (non-error) response that stores nothing and has
the same structural shape as the success response (same empty message list,
same absent data, same log keys), with log content that signals the
failure; otherwise it stores the salted hash of the candidate for the
sender, unconditionally replacing any prior key and leaving every other
account key unchanged.  The required key length and the hash are the
spec-modelled viewing-key module. -/
theorem c8_set_key (vk : VKModel) (s : ContractState) (env : Env) (key : String) :
    (key.length ≠ vk.apiKeyLen →
      try_set_key vk s env key = .ok (s, setKeyFailResp vk) ∧
      (setKeyFailResp vk).messages = (setKeySuccessResp key).messages ∧
      (setKeyFailResp vk).data = (setKeySuccessResp key).data ∧
      (setKeyFailResp vk).log.map Prod.fst = (setKeySuccessResp key).log.map Prod.fst ∧
      (setKeyFailResp vk).log.head? = some ("result", "failed!")) ∧
    (key.length = vk.apiKeyLen →
      try_set_key vk s env key =
        .ok (write_viewing_key vk s env.sender key, setKeySuccessResp key) ∧
      read_viewing_key (write_viewing_key vk s env.sender key) env.sender =
        some (vk.hash key) ∧
      (∀ a, a ≠ env.sender →
        read_viewing_key (write_viewing_key vk s env.sender key) a =
          read_viewing_key s a) ∧
      (write_viewing_key vk s env.sender key).balances = s.balances ∧
      (write_viewing_key vk s env.sender key).allowances = s.allowances ∧
      (write_viewing_key vk s env.sender key).totalSupply = s.totalSupply) := by
  constructor
  · intro hne
    refine ⟨?_, rfl, rfl, rfl, rfl⟩
    simp only [try_set_key, if_pos hne]
  · intro heq
    refine ⟨?_, ?_, ?_, rfl, rfl, rfl⟩
    · simp only [try_set_key, heq]
      simp
    · simp only [read_viewing_key, write_viewing_key, sget_sset_self]
    · intro a ha
      simp only [read_viewing_key, write_viewing_key]
      exact sget_sset_ne _ _ _ _ ha

def vkFix : VKModel := { hash := fun k => [7, k.length], apiKeyLen := 2 }

/-- C8 witness: with required key length 2, the candidate abc is rejected
with the Ok-shaped failure response and no write, and the candidate ab is
stored for the sender. -/
theorem c8_set_key_witness :
    (try_set_key vkFix emptyState { sender := 3, sentFunds := [], contractAddress := 9 }
        ("abc") = .ok (emptyState, setKeyFailResp vkFix) ∧
      (setKeyFailResp vkFix).messages = (setKeySuccessResp ("abc")).messages ∧
      (setKeyFailResp vkFix).data = (setKeySuccessResp ("abc")).data ∧
      (setKeyFailResp vkFix).log.map Prod.fst =
        (setKeySuccessResp ("abc")).log.map Prod.fst ∧
      (setKeyFailResp vkFix).log.head? = some ("result", "failed!")) ∧
    (try_set_key vkFix emptyState { sender := 3, sentFunds := [], contractAddress := 9 }
        ("ab") = .ok (write_viewing_key vkFix emptyState 3 ("ab"),
          setKeySuccessResp ("ab")) ∧
      read_viewing_key (write_viewing_key vkFix emptyState 3 ("ab")) 3 =
        some (vkFix.hash ("ab"))) := by
  constructor
  · exact (c8_set_key vkFix emptyState
      { sender := 3, sentFunds := [], contractAddress := 9 } ("abc")).1 (by decide)
  · have h := (c8_set_key vkFix emptyState
      { sender := 3, sentFunds := [], contractAddress := 9 } ("ab")).2 (by decide)
    exact ⟨h.1, h.2.1⟩

/-! ### C2: the query gate denial -/

/-- A copy of the state with every ledger namespace emptied and the config
erased; only the viewing keys remain.  Used to express that the denial path
reads no ledger data. -/
def scrubLedger (s : ContractState) : ContractState :=
  { s with balances := [], allowances := [], constants := none,
           totalSupply := none, history := [] }

/-- C2: when verification of the candidate fails — no key stored for the
canonical address (with the candidate hash differing from the zero
placeholder, the premise of the spec-modelled hash) or a stored hash that
does not match — the query returns exactly the fixed denial payload, the
same payload in both cases, and the read accessor is not executed: the same
result comes out of the state with every ledger namespace scrubbed. -/
theorem c2_query_denial (vk : VKModel) (api : Api) (s : ContractState) (msg : QueryMsg)
    (caddr : Addr)
    (hc : api.canonical (getValidationParams msg).1 = .ok caddr)
    (hfail : (read_viewing_key s caddr = none ∧
               vk.hash (getValidationParams msg).2 ≠ zerosPlaceholder) ∨
             (∃ ek, read_viewing_key s caddr = some ek ∧
               vk.hash (getValidationParams msg).2 ≠ ek)) :
    query vk api s msg = .ok denialMsg ∧
    query vk api (scrubLedger s) msg = .ok denialMsg := by
  have hscrub : read_viewing_key (scrubLedger s) caddr = read_viewing_key s caddr := rfl
  obtain ⟨hnone, hhash⟩ | ⟨ek, hsome, hhash⟩ := hfail
  · have hcheck : check_viewing_key vk (getValidationParams msg).2 zerosPlaceholder =
        false := by
      simp only [check_viewing_key, beq_eq_false_iff_ne]
      exact hhash
    constructor
    · simp only [query, hc, hnone, hcheck, Bool.not_false, if_true]
    · simp only [query, hc, hscrub, hnone, hcheck, Bool.not_false, if_true]
  · have hcheck : check_viewing_key vk (getValidationParams msg).2 ek = false := by
      simp only [check_viewing_key, beq_eq_false_iff_ne]
      exact hhash
    constructor
    · simp only [query, hc, hsome, hcheck, Bool.not_false, if_true]
    · simp only [query, hc, hscrub, hsome, hcheck, Bool.not_false, if_true]

/-- C2 witness, mirroring scenario 6 of the spec: account E has no key
stored, account FF has a key stored whose hash is not the hash of the wrong
candidate; both balance queries return the same fixed denial payload. -/
theorem c2_query_denial_witness :
    (query vkFix apiLen { emptyState with balances := [(1, toBeBytes 9)] }
        (QueryMsg.balance ("E") ("xy")) = .ok denialMsg ∧
      query vkFix apiLen (scrubLedger { emptyState with balances := [(1, toBeBytes 9)] })
        (QueryMsg.balance ("E") ("xy")) = .ok denialMsg) ∧
    (query vkFix apiLen { emptyState with viewingKeys := [(2, [9, 9])] }
        (QueryMsg.balance ("FF") ("xy")) = .ok denialMsg ∧
      query vkFix apiLen (scrubLedger { emptyState with viewingKeys := [(2, [9, 9])] })
        (QueryMsg.balance ("FF") ("xy")) = .ok denialMsg) := by
  constructor
  · exact c2_query_denial vkFix apiLen { emptyState with balances := [(1, toBeBytes 9)] }
      (QueryMsg.balance ("E") ("xy")) 1 (by decide) (Or.inl (by decide))
  · exact c2_query_denial vkFix apiLen { emptyState with viewingKeys := [(2, [9, 9])] }
      (QueryMsg.balance ("FF") ("xy")) 2 (by decide) (Or.inr ⟨[9, 9], by decide, by decide⟩)

/-! ### C5: withdraw -/

def withdrawResp (contractH senderH : String) (amount : Nat) : HandleResponse :=
  { messages := [CosmosMsg.bankSend contractH senderH
      [{ denom := "uscrt", amount := amount }]],
    log := [("action", "withdraw"), ("account", senderH), ("amount", Nat.repr amount)],
    data := none }

set_option maxHeartbeats 1000000 in
/-- C5: over a well-formed state whose total supply dominates the sender
balance (the supply invariant), try_withdraw with a balance below the amount
fails with InsufficientFunds, commits nothing and emits nothing; otherwise
it debits the sender by the amount, decrements the total supply by the
amount, leaves every other balance untouched, and its response carries
exactly one outbound bank-send instruction paying the amount of uscrt from
the contract address to the sender. -/
theorem c5_withdraw (api : Api) (s : ContractState) (env : Env) (amount : Nat)
    (contractH senderH : String) (tb : Bytes)
    (hwf : EncWF s.balances = true)
    (htot : s.totalSupply = some tb) (htv : ValidEnc tb = true)
    (hinv : getU s.balances env.sender ≤ fromBeBytes tb)
    (hc : api.human env.contractAddress = .ok contractH)
    (hs : api.human env.sender = .ok senderH) :
    (getU s.balances env.sender < amount →
      try_withdraw api s env amount =
        .err (insufficientFundsBurnMsg (getU s.balances env.sender) amount) ∧
      commit s (try_withdraw api s env amount) = s) ∧
    (amount ≤ getU s.balances env.sender →
      ∃ s', try_withdraw api s env amount = .ok (s', withdrawResp contractH senderH amount) ∧
        getU s'.balances env.sender = getU s.balances env.sender - amount ∧
        (∀ a, a ≠ env.sender → sget s'.balances a = sget s.balances a) ∧
        s'.totalSupply = some (toBeBytes (fromBeBytes tb - amount)) ∧
        s'.allowances = s.allowances ∧ s'.viewingKeys = s.viewingKeys ∧
        (withdrawResp contractH senderH amount).messages =
          [CosmosMsg.bankSend contractH senderH [{ denom := "uscrt", amount := amount }]]) := by
  have htlt : fromBeBytes tb < u128Mod := validEnc_lt htv
  constructor
  · intro hlt
    have : try_withdraw api s env amount =
        .err (insufficientFundsBurnMsg (getU s.balances env.sender) amount) := by
      simp only [try_withdraw, read_u128_wf s.balances env.sender hwf, if_pos hlt]
    exact ⟨this, by rw [this]; rfl⟩
  · intro hge
    have hnlt : ¬(getU s.balances env.sender < amount) := by omega
    simp only [try_withdraw, read_u128_wf s.balances env.sender hwf, if_neg hnlt, htot,
      bytes_to_u128_validEnc htv, hc, hs]
    rw [wrapping_sub_eq (by omega) htlt]
    refine ⟨_, rfl, ?_, ?_, rfl, rfl, rfl, rfl⟩
    · exact getU_sset_self _ _ (by omega)
    · intro a ha
      exact sget_sset_ne _ _ _ _ ha

/-- C5 witness: account 1 with balance 50 and total supply 80; withdrawing
60 fails with InsufficientFunds and commits nothing, withdrawing 20
succeeds with the single bank-send payout. -/
theorem c5_withdraw_witness :
    (getU [(1, toBeBytes 50)] 1 < 60 →
      try_withdraw apiLen
        { emptyState with balances := [(1, toBeBytes 50)],
                          totalSupply := some (toBeBytes 80) }
        { sender := 1, sentFunds := [], contractAddress := 9 } 60 =
        .err (insufficientFundsBurnMsg (getU [(1, toBeBytes 50)] 1) 60) ∧
      commit { emptyState with balances := [(1, toBeBytes 50)],
                               totalSupply := some (toBeBytes 80) }
        (try_withdraw apiLen
          { emptyState with balances := [(1, toBeBytes 50)],
                            totalSupply := some (toBeBytes 80) }
          { sender := 1, sentFunds := [], contractAddress := 9 } 60) =
        { emptyState with balances := [(1, toBeBytes 50)],
                          totalSupply := some (toBeBytes 80) }) ∧
    (∃ s', try_withdraw apiLen
        { emptyState with balances := [(1, toBeBytes 50)],
                          totalSupply := some (toBeBytes 80) }
        { sender := 1, sentFunds := [], contractAddress := 9 } 20 =
        .ok (s', withdrawResp (Nat.repr 9) (Nat.repr 1) 20) ∧
      getU s'.balances 1 = getU [(1, toBeBytes 50)] 1 - 20 ∧
      (∀ a, a ≠ (1 : Addr) → sget s'.balances a = sget [(1, toBeBytes 50)] a) ∧
      s'.totalSupply = some (toBeBytes (fromBeBytes (toBeBytes 80) - 20)) ∧
      s'.allowances = ([] : List ((Addr × Addr) × Bytes)) ∧
      s'.viewingKeys = ([] : List (Addr × Bytes)) ∧
      (withdrawResp (Nat.repr 9) (Nat.repr 1) 20).messages =
        [CosmosMsg.bankSend (Nat.repr 9) (Nat.repr 1)
          [{ denom := "uscrt", amount := 20 }]]) := by
  constructor
  · exact (c5_withdraw apiLen
      { emptyState with balances := [(1, toBeBytes 50)],
                        totalSupply := some (toBeBytes 80) }
      { sender := 1, sentFunds := [], contractAddress := 9 } 60 (Nat.repr 9) (Nat.repr 1)
      (toBeBytes 80) (by decide) rfl (by decide) (by decide) (by decide) (by decide)).1
  · exact (c5_withdraw apiLen
      { emptyState with balances := [(1, toBeBytes 50)],
                        totalSupply := some (toBeBytes 80) }
      { sender := 1, sentFunds := [], contractAddress := 9 } 20 (Nat.repr 9) (Nat.repr 1)
      (toBeBytes 80) (by decide) rfl (by decide) (by decide) (by decide) (by decide)).2
      (by decide)

/-! ### C6: deposit -/

/-- The uscrt coins among the attached funds. -/
def uscrtCoins (env : Env) : List Coin :=
  env.sentFunds.filter (fun c => c.denom == "uscrt")

/-- The native-currency amount attached to a call. -/
def attachedUscrt (env : Env) : Nat :=
  ((uscrtCoins env).map Coin.amount).sum

theorem depFold_no_uscrt (l : List Coin) (acc : Nat)
    (h : l.filter (fun c => c.denom == "uscrt") = []) :
    l.foldl (fun acc c => if c.denom = "uscrt" then c.amount else acc) acc = acc := by
  induction l generalizing acc with
  | nil => rfl
  | cons c t ih =>
      by_cases hd : c.denom = "uscrt"
      · have hb : (c.denom == "uscrt") = true := by simp [hd]
        simp only [List.filter_cons, hb, if_true] at h
        exact absurd h (List.cons_ne_nil c _)
      · have hb : (c.denom == "uscrt") = false := by simp [hd]
        simp only [List.filter_cons, hb, Bool.false_eq_true, if_false] at h
        simp only [List.foldl_cons, if_neg hd]
        exact ih _ h

theorem depFold_eq_sum (l : List Coin)
    (h : (l.filter (fun c => c.denom == "uscrt")).length ≤ 1) :
    l.foldl (fun acc c => if c.denom = "uscrt" then c.amount else acc) 0 =
      ((l.filter (fun c => c.denom == "uscrt")).map Coin.amount).sum := by
  induction l with
  | nil => rfl
  | cons c t ih =>
      by_cases hd : c.denom = "uscrt"
      · have hb : (c.denom == "uscrt") = true := by simp [hd]
        simp only [List.filter_cons, hb, if_true] at h ⊢
        have ht : t.filter (fun c => c.denom == "uscrt") = [] := by
          simp only [List.length_cons] at h
          have h0 := Nat.le_of_succ_le_succ h
          exact List.eq_nil_of_length_eq_zero (Nat.le_zero.mp h0)
        simp only [List.foldl_cons, if_pos hd]
        rw [depFold_no_uscrt t c.amount ht, ht]
        simp
      · have hb : (c.denom == "uscrt") = false := by simp [hd]
        simp only [List.filter_cons, hb, Bool.false_eq_true, if_false] at h ⊢
        simp only [List.foldl_cons, if_neg hd]
        exact ih h

/-- With the host-normalized funds (at most one coin per denomination), the
last-wins loop of try_deposit reads exactly the attached uscrt amount. -/
theorem depositAmount_eq_attached (env : Env)
    (h : (uscrtCoins env).length ≤ 1) : depositAmount env = attachedUscrt env :=
  depFold_eq_sum env.sentFunds h

def depositResp (senderH : String) (amount : Nat) : HandleResponse :=
  { messages := [],
    log := [("action", "deposit"), ("account", senderH), ("amount", Nat.repr amount)],
    data := none }

set_option maxHeartbeats 1000000 in
/-- C6 (amended): with host-normalized funds (at most one uscrt coin) and
additions staying below 2 ^ 128, try_deposit fails with ZeroDeposit exactly
when the attached uscrt amount is zero; otherwise it credits the sender
balance by exactly the attached amount, increments the total supply by the
same amount, leaves every other balance and namespace untouched, and its
response carries no outbound messages.  At the 2 ^ 128 boundary the credit
wraps instead (see the counterexample). -/
theorem c6_deposit (api : Api) (s : ContractState) (env : Env) (senderH : String)
    (tb : Bytes)
    (hwf : EncWF s.balances = true)
    (htot : s.totalSupply = some tb) (htv : ValidEnc tb = true)
    (hone : (uscrtCoins env).length ≤ 1)
    (hnw1 : getU s.balances env.sender + attachedUscrt env < u128Mod)
    (hnw2 : fromBeBytes tb + attachedUscrt env < u128Mod)
    (hs : api.human env.sender = .ok senderH) :
    (attachedUscrt env = 0 →
      try_deposit api s env = .err ("Lol send some funds dude") ∧
      commit s (try_deposit api s env) = s) ∧
    (attachedUscrt env ≠ 0 →
      ∃ s', try_deposit api s env = .ok (s', depositResp senderH (attachedUscrt env)) ∧
        getU s'.balances env.sender = getU s.balances env.sender + attachedUscrt env ∧
        (∀ a, a ≠ env.sender → sget s'.balances a = sget s.balances a) ∧
        s'.totalSupply = some (toBeBytes (fromBeBytes tb + attachedUscrt env)) ∧
        s'.allowances = s.allowances ∧ s'.viewingKeys = s.viewingKeys ∧
        (depositResp senderH (attachedUscrt env)).messages = []) := by
  have hdep : depositAmount env = attachedUscrt env := depositAmount_eq_attached env hone
  constructor
  · intro h0
    have : try_deposit api s env = .err ("Lol send some funds dude") := by
      simp only [try_deposit, hdep, if_pos h0]
    exact ⟨this, by rw [this]; rfl⟩
  · intro hne
    simp only [try_deposit, hdep, if_neg hne, read_u128_wf s.balances env.sender hwf,
      htot, bytes_to_u128_validEnc htv, hs]
    rw [Nat.mod_eq_of_lt hnw1, Nat.mod_eq_of_lt hnw2]
    refine ⟨_, rfl, ?_, ?_, rfl, rfl, rfl, rfl⟩
    · exact getU_sset_self _ _ (by omega)
    · intro a ha
      exact sget_sset_ne _ _ _ _ ha

/-- C6 witness: account 1 with balance 5 and total supply 5; a call with no
attached uscrt fails with ZeroDeposit, a call with 7 uscrt attached credits
1:1 and raises the supply to 12 with no outbound message. -/
theorem c6_deposit_witness :
    (try_deposit apiLen
        { emptyState with balances := [(1, toBeBytes 5)],
                          totalSupply := some (toBeBytes 5) }
        { sender := 1, sentFunds := [{ denom := "other", amount := 4 }],
          contractAddress := 9 } = .err ("Lol send some funds dude")) ∧
    (∃ s', try_deposit apiLen
        { emptyState with balances := [(1, toBeBytes 5)],
                          totalSupply := some (toBeBytes 5) }
        { sender := 1, sentFunds := [{ denom := "uscrt", amount := 7 }],
          contractAddress := 9 } =
        .ok (s', depositResp (Nat.repr 1)
          (attachedUscrt { sender := 1, sentFunds := [{ denom := "uscrt", amount := 7 }],
                           contractAddress := 9 })) ∧
      getU s'.balances 1 = getU [(1, toBeBytes 5)] 1 +
        attachedUscrt { sender := 1, sentFunds := [{ denom := "uscrt", amount := 7 }],
                        contractAddress := 9 } ∧
      (∀ a, a ≠ (1 : Addr) → sget s'.balances a = sget [(1, toBeBytes 5)] a) ∧
      s'.totalSupply = some (toBeBytes (fromBeBytes (toBeBytes 5) +
        attachedUscrt { sender := 1, sentFunds := [{ denom := "uscrt", amount := 7 }],
                        contractAddress := 9 }))) := by
  constructor
  · exact ((c6_deposit apiLen
      { emptyState with balances := [(1, toBeBytes 5)],
                        totalSupply := some (toBeBytes 5) }
      { sender := 1, sentFunds := [{ denom := "other", amount := 4 }],
        contractAddress := 9 } (Nat.repr 1) (toBeBytes 5)
      (by decide) rfl (by decide) (by decide) (by decide) (by decide) (by decide)).1
      (by decide)).1
  · have h := (c6_deposit apiLen
      { emptyState with balances := [(1, toBeBytes 5)],
                        totalSupply := some (toBeBytes 5) }
      { sender := 1, sentFunds := [{ denom := "uscrt", amount := 7 }],
        contractAddress := 9 } (Nat.repr 1) (toBeBytes 5)
      (by decide) rfl (by decide) (by decide) (by decide) (by decide) (by decide)).2
      (by decide)
    obtain ⟨s', h1, h2, h3, h4, _⟩ := h
    exact ⟨s', h1, h2, h3, h4⟩

def c6Consts : Constants :=
  { name := asciiBytes ("TestToken"), symbol := asciiBytes ("TST"), decimals := 6 }

def c6WrapState : ContractState :=
  { balances := [(1, toBeBytes (u128Mod - 1))], allowances := [], viewingKeys := [],
    constants := some c6Consts, totalSupply := some (toBeBytes (u128Mod - 1)),
    history := [] }

def c6WrapEnv : Env :=
  { sender := 1, sentFunds := [{ denom := "uscrt", amount := 1 }],
    contractAddress := 9 }

def c6WrapFinal : ContractState :=
  { balances := [(1, toBeBytes 0)], allowances := [], viewingKeys := [],
    constants := some c6Consts, totalSupply := some (toBeBytes 0), history := [] }

/-- C6 counterexample: a deposit of 1 uscrt onto a balance of 2 ^ 128 - 1
(reachable by an ordinary init of that amount) completes successfully but
the wrapping u128 addition drops the stored balance and the stored total
supply to 0 instead of crediting the sender 1:1 by the attached amount. -/
theorem c6_counterexample :
    attachedUscrt c6WrapEnv = 1 ∧
    try_deposit apiLen c6WrapState c6WrapEnv =
      .ok (c6WrapFinal, depositResp (Nat.repr 1) 1) ∧
    getU c6WrapState.balances 1 = u128Mod - 1 ∧
    getU c6WrapFinal.balances 1 = 0 ∧
    ¬((0 : Nat) = u128Mod - 1 + 1) := by decide

/-! ### C3: transfer_from -/

def transferFromResp (spenderH owner recipient : String) : HandleResponse :=
  { messages := [],
    log := [("action", "transfer_from"), ("spender", spenderH), ("sender", owner),
            ("recipient", recipient)],
    data := none }

set_option maxHeartbeats 1000000 in
/-- C3 (amended): over well-formed namespaces, try_transfer_from fails with
InsufficientAllowance exactly when the stored allowance is below the amount,
committing nothing; with sufficient allowance but insufficient owner
balance it fails with InsufficientFunds inside perform_transfer, committing
nothing (including the allowance decrement already written in the
invocation view); on success the allowance decreases by exactly the amount
and, when owner and recipient are distinct and the credit stays below
2 ^ 128, the owner is debited and the recipient credited by the amount with
all other entries untouched, while an owner-equals-recipient success leaves
every balance unchanged; and every error outcome commits nothing. -/
theorem c3_transfer_from (api : Api) (s : ContractState) (env : Env)
    (owner recipient : String) (amount : Nat) (ownerRaw recipientRaw : Addr)
    (spenderH : String) (c : Constants)
    (hco : api.canonical owner = .ok ownerRaw)
    (hcr : api.canonical recipient = .ok recipientRaw)
    (hwa : EncWF s.allowances = true)
    (hwb : EncWF s.balances = true)
    (hcon : s.constants = some c)
    (hh : api.human env.sender = .ok spenderH) :
    (getU s.allowances (ownerRaw, env.sender) < amount →
      try_transfer_from api s env owner recipient amount =
        .err (insufficientAllowanceMsg (getU s.allowances (ownerRaw, env.sender)) amount) ∧
      commit s (try_transfer_from api s env owner recipient amount) = s) ∧
    (amount ≤ getU s.allowances (ownerRaw, env.sender) →
      getU s.balances ownerRaw < amount →
      try_transfer_from api s env owner recipient amount =
        .err (insufficientFundsMsg (getU s.balances ownerRaw) amount) ∧
      commit s (try_transfer_from api s env owner recipient amount) = s) ∧
    (amount ≤ getU s.allowances (ownerRaw, env.sender) →
      amount ≤ getU s.balances ownerRaw → ownerRaw ≠ recipientRaw →
      getU s.balances recipientRaw + amount < u128Mod →
      ∃ s', try_transfer_from api s env owner recipient amount =
          .ok (s', transferFromResp spenderH owner recipient) ∧
        getU s'.allowances (ownerRaw, env.sender) =
          getU s.allowances (ownerRaw, env.sender) - amount ∧
        (∀ k, k ≠ (ownerRaw, env.sender) → sget s'.allowances k = sget s.allowances k) ∧
        getU s'.balances ownerRaw = getU s.balances ownerRaw - amount ∧
        getU s'.balances recipientRaw = getU s.balances recipientRaw + amount ∧
        (∀ a, a ≠ ownerRaw → a ≠ recipientRaw → sget s'.balances a = sget s.balances a)) ∧
    (amount ≤ getU s.allowances (ownerRaw, env.sender) →
      amount ≤ getU s.balances ownerRaw → ownerRaw = recipientRaw →
      ∃ s', try_transfer_from api s env owner recipient amount =
          .ok (s', transferFromResp spenderH owner recipient) ∧
        getU s'.allowances (ownerRaw, env.sender) =
          getU s.allowances (ownerRaw, env.sender) - amount ∧
        (∀ a, getU s'.balances a = getU s.balances a)) ∧
    (∀ e, try_transfer_from api s env owner recipient amount = .err e →
      commit s (try_transfer_from api s env owner recipient amount) = s) := by
  have halt : getU s.allowances (ownerRaw, env.sender) < u128Mod := getU_lt _ hwa
  refine ⟨?_, ?_, ?_, ?_, ?_⟩
  · intro hlt
    have heq : try_transfer_from api s env owner recipient amount =
        .err (insufficientAllowanceMsg (getU s.allowances (ownerRaw, env.sender)) amount) := by
      simp only [try_transfer_from, hco, hcr, read_allowance,
        read_u128_wf s.allowances _ hwa, if_pos hlt]
    exact ⟨heq, by rw [heq]; rfl⟩
  · intro hge hblt
    have hnlt : ¬(getU s.allowances (ownerRaw, env.sender) < amount) := by omega
    have hperf := (perform_transfer_spec s.balances ownerRaw recipientRaw amount hwb).1 hblt
    have heq : try_transfer_from api s env owner recipient amount =
        .err (insufficientFundsMsg (getU s.balances ownerRaw) amount) := by
      simp only [try_transfer_from, hco, hcr, read_allowance,
        read_u128_wf s.allowances _ hwa, if_neg hnlt, write_allowance, hperf]
    exact ⟨heq, by rw [heq]; rfl⟩
  · intro hge hbge hne hnw
    have hnlt : ¬(getU s.allowances (ownerRaw, env.sender) < amount) := by omega
    obtain ⟨balances1, hperf, hwf1, hfrom, hto, hother⟩ :=
      (perform_transfer_spec s.balances ownerRaw recipientRaw amount hwb).2.1 hbge hne hnw
    simp only [try_transfer_from, hco, hcr, read_allowance,
      read_u128_wf s.allowances _ hwa, if_neg hnlt, write_allowance, hperf,
      read_constants, hcon, store_transfer, hh]
    refine ⟨_, rfl, ?_, ?_, hfrom, hto, hother⟩
    · exact getU_sset_self _ _ (by omega)
    · intro k hk
      exact sget_sset_ne _ _ _ _ hk
  · intro hge hbge heq
    have hnlt : ¬(getU s.allowances (ownerRaw, env.sender) < amount) := by omega
    obtain ⟨balances1, hperf, hall⟩ :=
      (perform_transfer_spec s.balances ownerRaw recipientRaw amount hwb).2.2 hbge heq
    simp only [try_transfer_from, hco, hcr, read_allowance,
      read_u128_wf s.allowances _ hwa, if_neg hnlt, write_allowance, hperf,
      read_constants, hcon, store_transfer, hh]
    refine ⟨_, rfl, ?_, hall⟩
    exact getU_sset_self _ _ (by omega)
  · intro e he
    rw [he]
    rfl

def cFix : Constants :=
  { name := asciiBytes ("TestToken"), symbol := asciiBytes ("TST"), decimals := 6 }

def c3Env : Env := { sender := 1, sentFunds := [], contractAddress := 9 }

def c3SelfState : ContractState :=
  { balances := [(1, toBeBytes 5)], allowances := [((1, 1), toBeBytes 3)],
    viewingKeys := [], constants := some cFix, totalSupply := some (toBeBytes 5),
    history := [] }

def c3SelfFinal : ContractState :=
  { balances := [(1, toBeBytes 5)], allowances := [((1, 1), toBeBytes 0)],
    viewingKeys := [], constants := some cFix, totalSupply := some (toBeBytes 5),
    history := [(1, 1, 3, asciiBytes ("TST"))] }

def c3WrapState : ContractState :=
  { balances := [(1, toBeBytes 1), (2, toBeBytes (u128Mod - 1))],
    allowances := [((1, 1), toBeBytes 1)],
    viewingKeys := [], constants := some cFix, totalSupply := some (toBeBytes 0),
    history := [] }

def c3WrapFinal : ContractState :=
  { balances := [(2, toBeBytes 0), (1, toBeBytes 0)],
    allowances := [((1, 1), toBeBytes 0)],
    viewingKeys := [], constants := some cFix, totalSupply := some (toBeBytes 0),
    history := [(1, 2, 1, asciiBytes ("TST"))] }

/-- C3 counterexample: a transfer_from whose owner and recipient resolve to
the same address succeeds with the allowance decremented but the owner
balance not debited (5 stays 5, not 5 - 3), and a transfer_from whose
credit crosses 2 ^ 128 wraps the recipient balance to 0 instead of
crediting it by the amount. -/
theorem c3_counterexample :
    try_transfer_from apiLen c3SelfState c3Env ("A") ("A") 3 =
      .ok (c3SelfFinal, transferFromResp (Nat.repr 1) ("A") ("A")) ∧
    getU c3SelfFinal.balances 1 = 5 ∧ ¬((5 : Nat) = 5 - 3) ∧
    try_transfer_from apiLen c3WrapState c3Env ("A") ("BB") 1 =
      .ok (c3WrapFinal, transferFromResp (Nat.repr 1) ("A") ("BB")) ∧
    getU c3WrapFinal.balances 2 = 0 ∧ ¬((0 : Nat) = u128Mod - 1 + 1) := by decide

def c3WitState : ContractState :=
  { balances := [(1, toBeBytes 1000)], allowances := [((1, 1), toBeBytes 100)],
    viewingKeys := [], constants := some cFix, totalSupply := some (toBeBytes 1000),
    history := [] }

/-- C3 witness, mirroring scenarios 3 and 4 of the spec: with allowance 100
for the spender, a transfer_from of 150 fails with InsufficientAllowance
committing nothing, and a transfer_from of 60 to the distinct address BB
leaves allowance 40, owner balance 940 and recipient balance 60. -/
theorem c3_transfer_from_witness :
    (try_transfer_from apiLen c3WitState c3Env ("A") ("BB") 150 =
      .err (insufficientAllowanceMsg (getU c3WitState.allowances (1, 1)) 150) ∧
      commit c3WitState (try_transfer_from apiLen c3WitState c3Env ("A") ("BB") 150) =
        c3WitState) ∧
    (∃ s', try_transfer_from apiLen c3WitState c3Env ("A") ("BB") 60 =
        .ok (s', transferFromResp (Nat.repr 1) ("A") ("BB")) ∧
      getU s'.allowances (1, 1) = getU c3WitState.allowances (1, 1) - 60 ∧
      (∀ k, k ≠ ((1 : Addr), (1 : Addr)) →
        sget s'.allowances k = sget c3WitState.allowances k) ∧
      getU s'.balances 1 = getU c3WitState.balances 1 - 60 ∧
      getU s'.balances 2 = getU c3WitState.balances 2 + 60 ∧
      (∀ a, a ≠ (1 : Addr) → a ≠ (2 : Addr) →
        sget s'.balances a = sget c3WitState.balances a)) := by
  constructor
  · exact (c3_transfer_from apiLen c3WitState c3Env ("A") ("BB") 150 1 2 (Nat.repr 1)
      cFix (by decide) (by decide) (by decide) (by decide) rfl (by decide)).1 (by decide)
  · exact (c3_transfer_from apiLen c3WitState c3Env ("A") ("BB") 60 1 2 (Nat.repr 1)
      cFix (by decide) (by decide) (by decide) (by decide) rfl (by decide)).2.2.1
      (by decide) (by decide) (by decide) (by decide)

/-! ### C10: totality of the query gate -/

theorem query_balance_ok (api : Api) (s : ContractState) (a : String) (caddr : Addr)
    (c : Constants) (hca : api.canonical a = .ok caddr)
    (hwf : EncWF s.balances = true) (hc : s.constants = some c)
    (hd : 10 ^ c.decimals % 2 ^ 32 ≠ 0) :
    ∃ out, query_balance api s a = .ok out := by
  simp only [query_balance, hca, get_balance, read_u128_wf s.balances caddr hwf,
    read_constants, hc, to_display_token, if_neg hd]
  exact ⟨_, rfl⟩

theorem query_transactions_ok (api : Api) (s : ContractState) (a : String) (caddr : Addr)
    (hca : api.canonical a = .ok caddr) :
    ∃ out, query_transactions api s a = .ok out := by
  simp only [query_transactions, hca, get_transfers]
  exact ⟨_, rfl⟩

set_option maxHeartbeats 1000000 in
/-- C10: the query entry point is total on reachable states: assuming the
spec-modelled premise that no candidate hashes to the 24-byte zero
placeholder (so the unwrap after the placeholder comparison is never
reached with None), a well-formed balance namespace and stored constants
with a nonzero display denominator (decimals at most 18), query never
panics; in particular the second canonicalization inside the history
accessor, being deterministic, cannot fail after the first one succeeded,
and whenever canonicalization succeeds the result is a value: the denial
payload or the accessor result. -/
theorem c10_query_never_panics (vk : VKModel) (api : Api) (s : ContractState)
    (msg : QueryMsg)
    (hhash : ∀ k, vk.hash k ≠ zerosPlaceholder)
    (hwf : EncWF s.balances = true)
    (hcon : ∃ c, s.constants = some c ∧ 10 ^ c.decimals % 2 ^ 32 ≠ 0) :
    query vk api s msg ≠ RunResult.panic ∧
    (∀ caddr, api.canonical (getValidationParams msg).1 = .ok caddr →
      ∃ out, query vk api s msg = .ok out) := by
  obtain ⟨c, hc, hd⟩ := hcon
  have main : ∀ a k caddr, api.canonical a = .ok caddr →
      (∃ out, query vk api s (QueryMsg.balance a k) = .ok out) ∧
      (∃ out2, query vk api s (QueryMsg.transfers a k) = .ok out2) := by
    intro a k caddr hca
    cases hvk : read_viewing_key s caddr with
    | none =>
        have hcheck : check_viewing_key vk k zerosPlaceholder = false := by
          simp only [check_viewing_key, beq_eq_false_iff_ne]
          exact hhash k
        constructor
        · exact ⟨denialMsg, by
            simp only [query, getValidationParams, hca, hvk, hcheck, Bool.not_false,
              if_true]⟩
        · exact ⟨denialMsg, by
            simp only [query, getValidationParams, hca, hvk, hcheck, Bool.not_false,
              if_true]⟩
    | some ek =>
        cases hchk : check_viewing_key vk k ek with
        | false =>
            constructor
            · exact ⟨denialMsg, by
                simp only [query, getValidationParams, hca, hvk, hchk, Bool.not_false,
                  if_true]⟩
            · exact ⟨denialMsg, by
                simp only [query, getValidationParams, hca, hvk, hchk, Bool.not_false,
                  if_true]⟩
        | true =>
            obtain ⟨out, hout⟩ := query_balance_ok api s a caddr c hca hwf hc hd
            obtain ⟨out2, hout2⟩ := query_transactions_ok api s a caddr hca
            constructor
            · exact ⟨out, by
                simp only [query, getValidationParams, hca, hvk, hchk, Bool.not_true,
                  Bool.false_eq_true, if_false, hout]⟩
            · exact ⟨out2, by
                simp only [query, getValidationParams, hca, hvk, hchk, Bool.not_true,
                  Bool.false_eq_true, if_false, hout2]⟩
  cases msg with
  | balance a k =>
      cases hca : api.canonical a with
      | error e =>
          constructor
          · intro hpanic
            simp only [query, getValidationParams, hca] at hpanic
            cases hpanic
          · intro caddr hcaddr
            simp only [getValidationParams] at hcaddr
            rw [hca] at hcaddr
            cases hcaddr
      | ok caddr2 =>
          constructor
          · intro hpanic
            obtain ⟨⟨out, hout⟩, _⟩ := main a k caddr2 hca
            rw [hout] at hpanic
            cases hpanic
          · intro caddr hcaddr
            simp only [getValidationParams] at hcaddr
            obtain ⟨⟨out, hout⟩, _⟩ := main a k caddr hcaddr
            exact ⟨out, hout⟩
  | transfers a k =>
      cases hca : api.canonical a with
      | error e =>
          constructor
          · intro hpanic
            simp only [query, getValidationParams, hca] at hpanic
            cases hpanic
          · intro caddr hcaddr
            simp only [getValidationParams] at hcaddr
            rw [hca] at hcaddr
            cases hcaddr
      | ok caddr2 =>
          constructor
          · intro hpanic
            obtain ⟨_, ⟨out2, hout2⟩⟩ := main a k caddr2 hca
            rw [hout2] at hpanic
            cases hpanic
          · intro caddr hcaddr
            simp only [getValidationParams] at hcaddr
            obtain ⟨_, ⟨out2, hout2⟩⟩ := main a k caddr hcaddr
            exact ⟨out2, hout2⟩

def c10WitState : ContractState :=
  { balances := [(3, toBeBytes 9)], allowances := [],
    viewingKeys := [(3, [7, 2])], constants := some cFix,
    totalSupply := some (toBeBytes 9), history := [(3, 1, 4, asciiBytes ("TST"))] }

/-- C10 witness: a concrete balance query against a reachable-shaped state
with a stored viewing key neither panics nor loses its value. -/
theorem c10_query_never_panics_witness :
    query vkFix apiLen c10WitState (QueryMsg.balance ("AAA") ("ab")) ≠ RunResult.panic ∧
    (∀ caddr, apiLen.canonical
        (getValidationParams (QueryMsg.balance ("AAA") ("ab"))).1 = .ok caddr →
      ∃ out, query vkFix apiLen c10WitState (QueryMsg.balance ("AAA") ("ab")) =
        .ok out) :=
  c10_query_never_panics vkFix apiLen c10WitState (QueryMsg.balance ("AAA") ("ab"))
    (fun k h => by simpa [vkFix, zerosPlaceholder] using congrArg List.length h)
    (by decide) ⟨cFix, rfl, by decide⟩

/-! ### C1: the supply invariant -/

/-- The strengthened supply invariant: well-formed, duplicate-free balances
with the stored total supply equal to the encoded balance sum, below 2^128. -/
def SupplyInv (s : ContractState) : Prop :=
  EncWF s.balances = true ∧ NodupKeys s.balances ∧
  s.totalSupply = some (toBeBytes (sumBal s.balances)) ∧
  sumBal s.balances < u128Mod

/-- The claim-facing part of the invariant: the stored TotalSupply is the
encoding of the sum of all stored balances. -/
def supplyMatchesBalances (s : ContractState) : Prop :=
  s.totalSupply = some (toBeBytes (sumBal s.balances))

set_option maxHeartbeats 1000000 in
theorem perform_transfer_inv (balances : List (Addr × Bytes)) (fromAddr toAddr : Addr)
    (amount : Nat) (balances1 : List (Addr × Bytes))
    (hwf : EncWF balances = true) (hnd : NodupKeys balances)
    (hlt : sumBal balances < u128Mod)
    (hok : perform_transfer balances fromAddr toAddr amount = .ok balances1) :
    EncWF balances1 = true ∧ NodupKeys balances1 ∧
    sumBal balances1 = sumBal balances := by
  have hble := getU_le_sumBal balances fromAddr hnd
  by_cases hblt : getU balances fromAddr < amount
  · simp only [perform_transfer, read_u128_wf balances fromAddr hwf, if_pos hblt] at hok
    cases hok
  · have hwfX : EncWF (sset balances fromAddr
        (toBeBytes (getU balances fromAddr - amount))) = true := encWF_sset _ _ hwf
    have hndX : NodupKeys (sset balances fromAddr
        (toBeBytes (getU balances fromAddr - amount))) := nodupKeys_sset _ _ hnd
    simp only [perform_transfer, read_u128_wf balances fromAddr hwf, if_neg hblt,
      read_u128_wf _ toAddr hwfX] at hok
    injection hok with hok
    subst hok
    have hsumX : sumBal (sset balances fromAddr
        (toBeBytes (getU balances fromAddr - amount))) = sumBal balances - amount := by
      rw [sumBal_sset_update balances fromAddr _ hnd,
        Nat.mod_eq_of_lt (by omega : getU balances fromAddr - amount < u128Mod)]
      omega
    have hcle := getU_le_sumBal (sset balances fromAddr
      (toBeBytes (getU balances fromAddr - amount))) toAddr hndX
    have hc : getU (sset balances fromAddr
        (toBeBytes (getU balances fromAddr - amount))) toAddr + amount < u128Mod := by
      omega
    refine ⟨encWF_sset _ _ hwfX, nodupKeys_sset _ _ hndX, ?_⟩
    rw [Nat.mod_eq_of_lt hc, sumBal_sset_update _ toAddr _ hndX,
      Nat.mod_eq_of_lt hc, hsumX]
    omega

set_option maxHeartbeats 1000000 in
theorem try_deposit_inv (api : Api) (s : ContractState) (env : Env)
    (s' : ContractState) (r : HandleResponse)
    (hinv : SupplyInv s)
    (hnw : sumBal s.balances + depositAmount env < u128Mod)
    (hok : try_deposit api s env = .ok (s', r)) : SupplyInv s' := by
  obtain ⟨hwf, hnd, htot, hlt⟩ := hinv
  have hble := getU_le_sumBal s.balances env.sender hnd
  have ha : getU s.balances env.sender + depositAmount env < u128Mod := by omega
  by_cases h0 : depositAmount env = 0
  · simp only [try_deposit, if_pos h0] at hok
    cases hok
  · cases hh : api.human env.sender with
    | error e =>
        simp only [try_deposit, if_neg h0, read_u128_wf _ _ hwf, htot,
          bytes_to_u128_validEnc (validEnc_toBeBytes _),
          fromBeBytes_toBeBytes_of_lt hlt, hh] at hok
        cases hok
    | ok senderH =>
        simp only [try_deposit, if_neg h0, read_u128_wf _ _ hwf, htot,
          bytes_to_u128_validEnc (validEnc_toBeBytes _),
          fromBeBytes_toBeBytes_of_lt hlt, hh] at hok
        injection hok with hok
        rw [Prod.mk.injEq] at hok
        obtain ⟨h1, h2⟩ := hok
        subst h1
        have hsum : sumBal (sset s.balances env.sender
            (toBeBytes ((getU s.balances env.sender + depositAmount env) % u128Mod))) =
            sumBal s.balances + depositAmount env := by
          rw [Nat.mod_eq_of_lt ha, sumBal_sset_update _ _ _ hnd, Nat.mod_eq_of_lt ha]
          omega
        refine ⟨encWF_sset _ _ hwf, nodupKeys_sset _ _ hnd, ?_, ?_⟩
        · dsimp only
          rw [hsum, Nat.mod_eq_of_lt hnw]
        · dsimp only
          rw [hsum]
          exact hnw

set_option maxHeartbeats 1000000 in
theorem try_withdraw_inv (api : Api) (s : ContractState) (env : Env) (amount : Nat)
    (s' : ContractState) (r : HandleResponse)
    (hinv : SupplyInv s)
    (hok : try_withdraw api s env amount = .ok (s', r)) : SupplyInv s' := by
  obtain ⟨hwf, hnd, htot, hlt⟩ := hinv
  have hble := getU_le_sumBal s.balances env.sender hnd
  by_cases hblt : getU s.balances env.sender < amount
  · simp only [try_withdraw, read_u128_wf _ _ hwf, if_pos hblt] at hok
    cases hok
  · cases hhc : api.human env.contractAddress with
    | error e =>
        simp only [try_withdraw, read_u128_wf _ _ hwf, if_neg hblt, htot,
          bytes_to_u128_validEnc (validEnc_toBeBytes _),
          fromBeBytes_toBeBytes_of_lt hlt, hhc] at hok
        cases hok
    | ok contractH =>
        cases hh : api.human env.sender with
        | error e =>
            simp only [try_withdraw, read_u128_wf _ _ hwf, if_neg hblt, htot,
              bytes_to_u128_validEnc (validEnc_toBeBytes _),
              fromBeBytes_toBeBytes_of_lt hlt, hhc, hh] at hok
            cases hok
        | ok senderH =>
            simp only [try_withdraw, read_u128_wf _ _ hwf, if_neg hblt, htot,
              bytes_to_u128_validEnc (validEnc_toBeBytes _),
              fromBeBytes_toBeBytes_of_lt hlt, hhc, hh] at hok
            injection hok with hok
            rw [Prod.mk.injEq] at hok
            obtain ⟨h1, h2⟩ := hok
            subst h1
            have hsum : sumBal (sset s.balances env.sender
                (toBeBytes (getU s.balances env.sender - amount))) =
                sumBal s.balances - amount := by
              rw [sumBal_sset_update _ _ _ hnd, Nat.mod_eq_of_lt (by omega)]
              omega
            refine ⟨encWF_sset _ _ hwf, nodupKeys_sset _ _ hnd, ?_, ?_⟩
            · dsimp only
              rw [hsum, wrapping_sub_eq (by omega) hlt]
            · dsimp only
              rw [hsum]
              omega

set_option maxHeartbeats 1000000 in
theorem try_burn_inv (api : Api) (s : ContractState) (env : Env) (amount : Nat)
    (s' : ContractState) (r : HandleResponse)
    (hinv : SupplyInv s)
    (hok : try_burn api s env amount = .ok (s', r)) : SupplyInv s' := by
  obtain ⟨hwf, hnd, htot, hlt⟩ := hinv
  have hble := getU_le_sumBal s.balances env.sender hnd
  by_cases hblt : getU s.balances env.sender < amount
  · simp only [try_burn, read_u128_wf _ _ hwf, if_pos hblt] at hok
    cases hok
  · cases hh : api.human env.sender with
    | error e =>
        simp only [try_burn, read_u128_wf _ _ hwf, if_neg hblt, htot,
          bytes_to_u128_validEnc (validEnc_toBeBytes _),
          fromBeBytes_toBeBytes_of_lt hlt, hh] at hok
        cases hok
    | ok senderH =>
        simp only [try_burn, read_u128_wf _ _ hwf, if_neg hblt, htot,
          bytes_to_u128_validEnc (validEnc_toBeBytes _),
          fromBeBytes_toBeBytes_of_lt hlt, hh] at hok
        injection hok with hok
        rw [Prod.mk.injEq] at hok
        obtain ⟨h1, h2⟩ := hok
        subst h1
        have hsum : sumBal (sset s.balances env.sender
            (toBeBytes (getU s.balances env.sender - amount))) =
            sumBal s.balances - amount := by
          rw [sumBal_sset_update _ _ _ hnd, Nat.mod_eq_of_lt (by omega)]
          omega
        refine ⟨encWF_sset _ _ hwf, nodupKeys_sset _ _ hnd, ?_, ?_⟩
        · dsimp only
          rw [hsum, wrapping_sub_eq (by omega) hlt]
        · dsimp only
          rw [hsum]
          omega

set_option maxHeartbeats 1000000 in
theorem try_transfer_inv (api : Api) (s : ContractState) (env : Env)
    (recipient : String) (amount : Nat) (s' : ContractState) (r : HandleResponse)
    (hinv : SupplyInv s)
    (hok : try_transfer api s env recipient amount = .ok (s', r)) :
    SupplyInv s' ∧ s'.totalSupply = s.totalSupply := by
  obtain ⟨hwf, hnd, htot, hlt⟩ := hinv
  cases hca : api.canonical recipient with
  | error e => simp only [try_transfer, hca] at hok; cases hok
  | ok rcp =>
  cases hperf : perform_transfer s.balances env.sender rcp amount with
  | panic => simp only [try_transfer, hca, hperf] at hok; cases hok
  | err e => simp only [try_transfer, hca, hperf] at hok; cases hok
  | ok balances1 =>
  obtain ⟨hwf1, hnd1, hsum1⟩ := perform_transfer_inv _ _ _ _ _ hwf hnd hlt hperf
  cases hcon : s.constants with
  | none => simp only [try_transfer, hca, hperf, read_constants, hcon] at hok; cases hok
  | some c =>
  cases hh : api.human env.sender with
  | error e =>
      simp only [try_transfer, hca, hperf, read_constants, hcon, store_transfer, hh] at hok
      cases hok
  | ok senderH =>
      simp only [try_transfer, hca, hperf, read_constants, hcon, store_transfer, hh] at hok
      injection hok with hok
      rw [Prod.mk.injEq] at hok
      obtain ⟨h1, h2⟩ := hok
      subst h1
      refine ⟨⟨hwf1, hnd1, ?_, ?_⟩, rfl⟩
      · dsimp only
        rw [hsum1]
        exact htot
      · dsimp only
        rw [hsum1]
        exact hlt

set_option maxHeartbeats 1000000 in
theorem try_transfer_from_inv (api : Api) (s : ContractState) (env : Env)
    (owner recipient : String) (amount : Nat) (s' : ContractState) (r : HandleResponse)
    (hinv : SupplyInv s)
    (hok : try_transfer_from api s env owner recipient amount = .ok (s', r)) :
    SupplyInv s' ∧ s'.totalSupply = s.totalSupply := by
  obtain ⟨hwf, hnd, htot, hlt⟩ := hinv
  cases hco : api.canonical owner with
  | error e => simp only [try_transfer_from, hco] at hok; cases hok
  | ok ow =>
  cases hcr : api.canonical recipient with
  | error e => simp only [try_transfer_from, hco, hcr] at hok; cases hok
  | ok rcp =>
  cases hal : read_allowance s ow env.sender with
  | panic => simp only [try_transfer_from, hco, hcr, hal] at hok; cases hok
  | err e => simp only [try_transfer_from, hco, hcr, hal] at hok; cases hok
  | ok allowance =>
  by_cases halt : allowance < amount
  · simp only [try_transfer_from, hco, hcr, hal, if_pos halt] at hok
    cases hok
  · cases hperf : perform_transfer s.balances ow rcp amount with
    | panic =>
        simp only [try_transfer_from, hco, hcr, hal, if_neg halt, write_allowance,
          hperf] at hok
        cases hok
    | err e =>
        simp only [try_transfer_from, hco, hcr, hal, if_neg halt, write_allowance,
          hperf] at hok
        cases hok
    | ok balances1 =>
    obtain ⟨hwf1, hnd1, hsum1⟩ := perform_transfer_inv _ _ _ _ _ hwf hnd hlt hperf
    cases hcon : s.constants with
    | none =>
        simp only [try_transfer_from, hco, hcr, hal, if_neg halt, write_allowance,
          hperf, read_constants, hcon] at hok
        cases hok
    | some c =>
    cases hh : api.human env.sender with
    | error e =>
        simp only [try_transfer_from, hco, hcr, hal, if_neg halt, write_allowance,
          hperf, read_constants, hcon, store_transfer, hh] at hok
        cases hok
    | ok spenderH =>
        simp only [try_transfer_from, hco, hcr, hal, if_neg halt, write_allowance,
          hperf, read_constants, hcon, store_transfer, hh] at hok
        injection hok with hok
        rw [Prod.mk.injEq] at hok
        obtain ⟨h1, h2⟩ := hok
        subst h1
        refine ⟨⟨hwf1, hnd1, ?_, ?_⟩, rfl⟩
        · dsimp only
          rw [hsum1]
          exact htot
        · dsimp only
          rw [hsum1]
          exact hlt

/-- The mutating invocations of the claim: deposit, withdraw, transfer,
transfer_from, burn. -/
inductive Op where
  | deposit (env : Env)
  | withdraw (env : Env) (amount : Nat)
  | transferOp (env : Env) (recipient : String) (amount : Nat)
  | transferFromOp (env : Env) (owner recipient : String) (amount : Nat)
  | burn (env : Env) (amount : Nat)
  deriving Repr

/-- Dispatch of one invocation, as in handle (contract.rs lines 71-92). -/
def execOp (api : Api) (op : Op) (s : ContractState) :
    RunResult (ContractState × HandleResponse) :=
  match op with
  | .deposit env => try_deposit api s env
  | .withdraw env amount => try_withdraw api s env amount
  | .transferOp env recipient amount => try_transfer api s env recipient amount
  | .transferFromOp env owner recipient amount =>
      try_transfer_from api s env owner recipient amount
  | .burn env amount => try_burn api s env amount

/-- The no-wrap side condition of an invocation: only deposit can push the
supply past 2 ^ 128 (every other addition is bounded by the current sum). -/
def opNoWrap (s : ContractState) : Op → Bool
  | .deposit env => decide (sumBal s.balances + depositAmount env < u128Mod)
  | _ => true

/-- Run a sequence of invocations, requiring every one to complete
successfully and to satisfy the no-wrap side condition. -/
def runOpsChecked (api : Api) : List Op → ContractState → Option ContractState
  | [], s => some s
  | op :: ops, s =>
    if opNoWrap s op then
      match execOp api op s with
      | .ok (s', _) => runOpsChecked api ops s'
      | _ => none
    else none

theorem execOp_inv (api : Api) (op : Op) (s s' : ContractState) (r : HandleResponse)
    (hinv : SupplyInv s) (hnw : opNoWrap s op = true)
    (hok : execOp api op s = .ok (s', r)) : SupplyInv s' := by
  cases op with
  | deposit env =>
      simp only [opNoWrap, decide_eq_true_eq] at hnw
      exact try_deposit_inv api s env s' r hinv hnw hok
  | withdraw env amount => exact try_withdraw_inv api s env amount s' r hinv hok
  | transferOp env recipient amount =>
      exact (try_transfer_inv api s env recipient amount s' r hinv hok).1
  | transferFromOp env owner recipient amount =>
      exact (try_transfer_from_inv api s env owner recipient amount s' r hinv hok).1
  | burn env amount => exact try_burn_inv api s env amount s' r hinv hok

theorem runOpsChecked_inv (api : Api) :
    ∀ (ops : List Op) (s s' : ContractState), SupplyInv s →
      runOpsChecked api ops s = some s' → SupplyInv s' := by
  intro ops
  induction ops with
  | nil =>
      intro s s' hinv hrun
      simp only [runOpsChecked, Option.some.injEq] at hrun
      rw [← hrun]
      exact hinv
  | cons op ops ih =>
      intro s s' hinv hrun
      simp only [runOpsChecked] at hrun
      by_cases hnw : opNoWrap s op = true
      · rw [if_pos hnw] at hrun
        cases hex : execOp api op s with
        | panic => rw [hex] at hrun; cases hrun
        | err e => rw [hex] at hrun; cases hrun
        | ok p =>
            rw [hex] at hrun
            exact ih p.1 s' (execOp_inv api op s p.1 p.2 hinv hnw (by rw [hex])) hrun
      · rw [if_neg hnw] at hrun
        cases hrun

set_option maxHeartbeats 1000000 in
theorem initLoop_inv (api : Api) :
    ∀ (rows : List InitialBalance) (bals : List (Addr × Bytes)) (total : Nat)
      (out : List (Addr × Bytes) × Nat),
      EncWF bals = true → NodupKeys bals → total = sumBal bals →
      total + (rows.map InitialBalance.amount).sum < u128Mod →
      (rows.map (fun row => (api.canonical row.address).toOption)).Nodup →
      (∀ row ∈ rows, ∀ a, api.canonical row.address = .ok a →
        a ∉ bals.map Prod.fst) →
      initLoop api rows bals total = .ok out →
      EncWF out.1 = true ∧ NodupKeys out.1 ∧ out.2 = sumBal out.1 ∧ out.2 < u128Mod := by
  intro rows
  induction rows with
  | nil =>
      intro bals total out hwf hnd htot hbound hdist hfresh hrun
      simp only [initLoop] at hrun
      injection hrun with hrun
      rw [← hrun]
      simp only [List.map_nil, List.sum_nil] at hbound
      exact ⟨hwf, hnd, htot, by omega⟩
  | cons row rows ih =>
      intro bals total out hwf hnd htot hbound hdist hfresh hrun
      simp only [List.map_cons, List.sum_cons] at hbound
      cases hca : api.canonical row.address with
      | error e => simp only [initLoop, hca] at hrun; cases hrun
      | ok raw =>
          simp only [initLoop, hca] at hrun
          have hrawfresh : raw ∉ bals.map Prod.fst :=
            hfresh row (List.mem_cons_self row rows) raw hca
          have hfilter : bals.filter (fun p => !(p.1 == raw)) = bals :=
            filter_ne_of_not_mem hrawfresh
          have hamt : row.amount < u128Mod := by omega
          have htot2 : (total + row.amount) % u128Mod = total + row.amount :=
            Nat.mod_eq_of_lt (by omega)
          have hsum2 : sumBal (sset bals raw (toBeBytes row.amount)) =
              total + row.amount := by
            rw [sumBal_sset, hfilter, fromBeBytes_toBeBytes_of_lt hamt, htot]
            omega
          rw [htot2] at hrun
          simp only [List.map_cons, List.nodup_cons] at hdist
          refine ih (sset bals raw (toBeBytes row.amount)) (total + row.amount) out
            (encWF_sset _ _ hwf) (nodupKeys_sset _ _ hnd) hsum2.symm (by omega)
            hdist.2 ?_ hrun
          intro r2 hr2 a ha2
          simp only [sset, List.map_cons, List.mem_cons]
          rintro (heq | hmem)
          · apply hdist.1
            have hsame : (api.canonical row.address).toOption =
                (api.canonical r2.address).toOption := by
              rw [hca, ha2, heq]
            rw [hsame]
            exact List.mem_map_of_mem (fun row => (api.canonical row.address).toOption)
              hr2
          · have : a ∈ bals.map Prod.fst := by
              rw [← hfilter]
              exact hmem
            exact hfresh r2 (List.mem_cons_of_mem row hr2) a ha2 this

set_option maxHeartbeats 1000000 in
theorem init_inv (api : Api) (msg : InitMsg) (s1 : ContractState)
    (hdist : (msg.initial_balances.map
      (fun row => (api.canonical row.address).toOption)).Nodup)
    (hsum : (msg.initial_balances.map InitialBalance.amount).sum < u128Mod)
    (hok : init api emptyState msg = .ok s1) : SupplyInv s1 := by
  cases hloop : initLoop api msg.initial_balances emptyState.balances 0 with
  | panic => simp only [init, hloop] at hok; cases hok
  | err e => simp only [init, hloop] at hok; cases hok
  | ok out =>
    have hbase : EncWF (emptyState.balances) = true := rfl
    have hnd0 : NodupKeys (emptyState.balances) := List.nodup_nil
    obtain ⟨hwf, hnd, htot, hbound⟩ := initLoop_inv api msg.initial_balances
      emptyState.balances 0 out hbase hnd0 rfl (by simpa using hsum) hdist
      (by intro row hr a ha hmem; simp only [emptyState] at hmem; cases hmem) hloop
    simp only [init, hloop] at hok
    by_cases hn : is_valid_name msg.name
    · by_cases hsy : is_valid_symbol msg.symbol
      · by_cases hd : msg.decimals > 18
        · simp only [hn, hsy, hd, Bool.not_true, Bool.false_eq_true, if_false,
            if_true] at hok
          cases hok
        · simp only [hn, hsy, hd, Bool.not_true, Bool.false_eq_true, if_false,
            if_true] at hok
          injection hok with hok
          rw [← hok]
          exact ⟨hwf, hnd, by dsimp only; rw [htot], by rw [← htot]; exact hbound⟩
      · have : is_valid_symbol msg.symbol = false := by
          rw [Bool.eq_false_iff]
          exact hsy
        simp only [hn, this, Bool.not_true, Bool.not_false, Bool.false_eq_true,
          if_false, if_true] at hok
        cases hok
    · have : is_valid_name msg.name = false := by
        rw [Bool.eq_false_iff]
        exact hn
      simp only [this, Bool.not_false, if_true] at hok
      cases hok

theorem try_transfer_preserves_total (api : Api) (s : ContractState) (env : Env)
    (recipient : String) (amount : Nat) (s' : ContractState) (r : HandleResponse)
    (hok : try_transfer api s env recipient amount = .ok (s', r)) :
    s'.totalSupply = s.totalSupply := by
  cases hca : api.canonical recipient with
  | error e => simp only [try_transfer, hca] at hok; cases hok
  | ok rcp =>
  cases hperf : perform_transfer s.balances env.sender rcp amount with
  | panic => simp only [try_transfer, hca, hperf] at hok; cases hok
  | err e => simp only [try_transfer, hca, hperf] at hok; cases hok
  | ok balances1 =>
  cases hcon : s.constants with
  | none => simp only [try_transfer, hca, hperf, read_constants, hcon] at hok; cases hok
  | some c =>
  cases hh : api.human env.sender with
  | error e =>
      simp only [try_transfer, hca, hperf, read_constants, hcon, store_transfer,
        hh] at hok
      cases hok
  | ok senderH =>
      simp only [try_transfer, hca, hperf, read_constants, hcon, store_transfer,
        hh] at hok
      injection hok with hok
      rw [Prod.mk.injEq] at hok
      obtain ⟨h1, h2⟩ := hok
      subst h1
      rfl

theorem try_transfer_from_preserves_total (api : Api) (s : ContractState) (env : Env)
    (owner recipient : String) (amount : Nat) (s' : ContractState) (r : HandleResponse)
    (hok : try_transfer_from api s env owner recipient amount = .ok (s', r)) :
    s'.totalSupply = s.totalSupply := by
  cases hco : api.canonical owner with
  | error e => simp only [try_transfer_from, hco] at hok; cases hok
  | ok ow =>
  cases hcr : api.canonical recipient with
  | error e => simp only [try_transfer_from, hco, hcr] at hok; cases hok
  | ok rcp =>
  cases hal : read_allowance s ow env.sender with
  | panic => simp only [try_transfer_from, hco, hcr, hal] at hok; cases hok
  | err e => simp only [try_transfer_from, hco, hcr, hal] at hok; cases hok
  | ok allowance =>
  by_cases halt : allowance < amount
  · simp only [try_transfer_from, hco, hcr, hal, if_pos halt] at hok
    cases hok
  · cases hperf : perform_transfer s.balances ow rcp amount with
    | panic =>
        simp only [try_transfer_from, hco, hcr, hal, if_neg halt, write_allowance,
          hperf] at hok
        cases hok
    | err e =>
        simp only [try_transfer_from, hco, hcr, hal, if_neg halt, write_allowance,
          hperf] at hok
        cases hok
    | ok balances1 =>
    cases hcon : s.constants with
    | none =>
        simp only [try_transfer_from, hco, hcr, hal, if_neg halt, write_allowance,
          hperf, read_constants, hcon] at hok
        cases hok
    | some c =>
    cases hh : api.human env.sender with
    | error e =>
        simp only [try_transfer_from, hco, hcr, hal, if_neg halt, write_allowance,
          hperf, read_constants, hcon, store_transfer, hh] at hok
        cases hok
    | ok spenderH =>
        simp only [try_transfer_from, hco, hcr, hal, if_neg halt, write_allowance,
          hperf, read_constants, hcon, store_transfer, hh] at hok
        injection hok with hok
        rw [Prod.mk.injEq] at hok
        obtain ⟨h1, h2⟩ := hok
        subst h1
        rfl

set_option maxHeartbeats 1000000 in
/-- C1 (amended): starting from the uninitialized store, when the
initial_balances rows canonicalize to pairwise distinct addresses and the
additions stay inside the u128 range (below 2 ^ 128; for deposits this is
the per-step side condition of the checked run), the stored TotalSupply is
the encoding of the sum of all stored balances after a successful init and
after every successful deposit/withdraw/transfer/transfer_from/burn
invocation; and transfer and transfer_from leave the stored TotalSupply
bytes unchanged.  With a duplicated address in initial_balances the
invariant fails after init (see the counterexample). -/
theorem c1_total_supply_invariant (api : Api) (msg : InitMsg)
    (s1 s2 : ContractState) (ops : List Op)
    (hdist : (msg.initial_balances.map
      (fun row => (api.canonical row.address).toOption)).Nodup)
    (hsum : (msg.initial_balances.map InitialBalance.amount).sum < u128Mod)
    (hinit : init api emptyState msg = .ok s1)
    (hops : runOpsChecked api ops s1 = some s2) :
    supplyMatchesBalances s1 ∧ supplyMatchesBalances s2 ∧
    (∀ s env recipient amount s' r,
      execOp api (.transferOp env recipient amount) s = .ok (s', r) →
      s'.totalSupply = s.totalSupply) ∧
    (∀ s env owner recipient amount s' r,
      execOp api (.transferFromOp env owner recipient amount) s = .ok (s', r) →
      s'.totalSupply = s.totalSupply) := by
  have hinv1 : SupplyInv s1 := init_inv api msg s1 hdist hsum hinit
  have hinv2 : SupplyInv s2 := runOpsChecked_inv api ops s1 s2 hinv1 hops
  refine ⟨hinv1.2.2.1, hinv2.2.2.1, ?_, ?_⟩
  · intro s env recipient amount s' r hok
    exact try_transfer_preserves_total api s env recipient amount s' r hok
  · intro s env owner recipient amount s' r hok
    exact try_transfer_from_preserves_total api s env owner recipient amount s' r hok

def c1MsgW : InitMsg :=
  { name := asciiBytes ("TestToken"), symbol := asciiBytes ("TST"), decimals := 6,
    initial_balances := [{ address := "A", amount := 100 }] }

def c1S1 : ContractState :=
  { balances := [(1, toBeBytes 100)], allowances := [], viewingKeys := [],
    constants := some cFix, totalSupply := some (toBeBytes 100), history := [] }

def c1Ops : List Op :=
  [Op.deposit { sender := 1, sentFunds := [{ denom := "uscrt", amount := 7 }],
                contractAddress := 9 },
   Op.transferOp { sender := 1, sentFunds := [], contractAddress := 9 } ("BB") 30,
   Op.withdraw { sender := 1, sentFunds := [], contractAddress := 9 } 20,
   Op.burn { sender := 1, sentFunds := [], contractAddress := 9 } 10]

def c1S2 : ContractState :=
  { balances := [(1, toBeBytes 47), (2, toBeBytes 30)], allowances := [],
    viewingKeys := [], constants := some cFix, totalSupply := some (toBeBytes 77),
    history := [(1, 2, 30, asciiBytes ("TST"))] }

/-- C1 witness: a concrete init of account A with 100 followed by a checked
deposit of 7, a transfer of 30 to BB, a withdraw of 20 and a burn of 10;
the stored supply matches the stored balance sum at the start and the end. -/
theorem c1_total_supply_invariant_witness :
    supplyMatchesBalances c1S1 ∧ supplyMatchesBalances c1S2 := by
  have h := c1_total_supply_invariant apiLen c1MsgW c1S1 c1S2 c1Ops
    (by decide) (by decide) (by decide) (by decide)
  exact ⟨h.1, h.2.1⟩

def c1DupMsg : InitMsg :=
  { name := asciiBytes ("TestToken"), symbol := asciiBytes ("TST"), decimals := 6,
    initial_balances := [{ address := "A", amount := 1 },
                         { address := "A", amount := 1 }] }

def c1DupState : ContractState :=
  { balances := [(1, toBeBytes 1)], allowances := [], viewingKeys := [],
    constants := some cFix, totalSupply := some (toBeBytes 2), history := [] }

/-- C1 counterexample: an init whose initial_balances list the same address
twice completes successfully, overwrites the balance to 1 but sums the
amounts into TotalSupply 2: the stored TotalSupply differs from the sum of
all stored balances right after a successful invocation. -/
theorem c1_counterexample :
    init apiLen emptyState c1DupMsg = .ok c1DupState ∧
    c1DupState.totalSupply = some (toBeBytes 2) ∧
    sumBal c1DupState.balances = 1 ∧
    ¬ supplyMatchesBalances c1DupState := by
  refine ⟨by decide, by decide, by decide, ?_⟩
  simp only [supplyMatchesBalances]
  decide
